import Mathlib

/-!
Verification development for the resume-builder core
(`resume_parser.py`, `ats_scorer.py`, `ai_enhancer.py`).

Python strings are modelled as `List Char`; Python dicts that carry a fixed
field set are modelled as structures with the empty string / empty list as
the "absent" sentinel (the code itself initialises every field that way).
Python float arithmetic in the scorer is modelled with exact rationals
(the weights 0.25/0.30/0.20 as 1/4, 3/10, 1/5); `round` is modelled as
Python's banker's rounding on rationals.
-/

namespace RB

/-- Convert a Lean string literal to the `List Char` model of Python strings. -/
def sl (s : String) : List Char := s.data

/-- The apostrophe character (written via its code point). -/
def apos : Char := Char.ofNat 39

/-- Python `str.isspace` / the `\s` class for the ASCII texts handled here. -/
def isSpaceCh (c : Char) : Bool :=
  c = ' ' || c = '\t' || c = '\n' || c = '\x0d' || c = '\x0b' || c = '\x0c'

/-- The regex `\d` class. -/
def isDigitCh (c : Char) : Bool := '0' ≤ c && c ≤ '9'

/-- ASCII letters. -/
def isAlphaCh (c : Char) : Bool :=
  ('a' ≤ c && c ≤ 'z') || ('A' ≤ c && c ≤ 'Z')

/-- The regex `\w` class (word characters) for the ASCII texts handled here. -/
def isWordCh (c : Char) : Bool := isAlphaCh c || isDigitCh c || c = '_'

/-- ASCII lower-casing of one character (Python `str.lower` on the texts here). -/
def lowerCh (c : Char) : Char :=
  if 'A' ≤ c && c ≤ 'Z' then Char.ofNat (c.toNat + 32) else c

/-- ASCII upper-casing of one character. -/
def upperCh (c : Char) : Char :=
  if 'a' ≤ c && c ≤ 'z' then Char.ofNat (c.toNat - 32) else c

/-- Python `str.lower`. -/
def pyLower (s : List Char) : List Char := s.map lowerCh

/-- Python `str.strip()` (strip surrounding whitespace). -/
def pyStrip (s : List Char) : List Char :=
  ((s.dropWhile isSpaceCh).reverse.dropWhile isSpaceCh).reverse

/-- Python `str.lstrip(cs)`: strip any of the characters `cs` from the left. -/
def pyLStrip (cs : List Char) (s : List Char) : List Char :=
  s.dropWhile (fun c => cs.contains c)

/-- Python `str.rstrip(cs)`. -/
def pyRStrip (cs : List Char) (s : List Char) : List Char :=
  (s.reverse.dropWhile (fun c => cs.contains c)).reverse

/-- Python `str.strip(cs)`. -/
def pyStripChars (cs : List Char) (s : List Char) : List Char :=
  pyRStrip cs (pyLStrip cs s)

/-- Python `str.split(sep)` for a one-character separator (keeps empty parts). -/
def splitOnCh (sep : Char) : List Char → List (List Char)
  | [] => [[]]
  | c :: rest =>
    let r := splitOnCh sep rest
    if c = sep then [] :: r
    else match r with
      | [] => [[c]]
      | g :: gs => (c :: g) :: gs

/-- Python `str.split()` (split on whitespace runs, dropping empty parts). -/
def splitWSAux : List Char → List Char → List (List Char)
  | [], acc => if acc = [] then [] else [acc.reverse]
  | c :: rest, acc =>
    if isSpaceCh c then
      if acc = [] then splitWSAux rest []
      else acc.reverse :: splitWSAux rest []
    else splitWSAux rest (c :: acc)

/-- Python `str.split()` with no argument. -/
def splitWS (s : List Char) : List (List Char) := splitWSAux s []

/-- Python `sep.join(parts)`. -/
def joinSep (sep : List Char) (parts : List (List Char)) : List Char :=
  (parts.intersperse sep).flatten

/-- Python substring test `needle in hay`. -/
def containsSub : List Char → List Char → Bool
  | n, [] => n.isEmpty
  | n, h :: t => (List.isPrefixOf n (h :: t)) || containsSub n t

/-- Python `str.startswith`. -/
def startsWith (p s : List Char) : Bool := List.isPrefixOf p s

/-- Python `str.endswith` for a one-character suffix. -/
def endsWithCh (c : Char) (s : List Char) : Bool :=
  match s.getLast? with
  | some d => d = c
  | none => false

/-- Python `str.isupper`: at least one cased character and no lower-case one. -/
def pyIsUpper (s : List Char) : Bool :=
  s.any (fun c => isAlphaCh c) && s.all (fun c => !('a' ≤ c && c ≤ 'z'))

/-- Python `str.title` (upper-case each letter that starts an alphabetic run,
lower-case the other letters), tracking whether the previous char was a letter. -/
def pyTitleAux : Bool → List Char → List Char
  | _, [] => []
  | prevAlpha, c :: rest =>
    if isAlphaCh c then
      (if prevAlpha then lowerCh c else upperCh c) :: pyTitleAux true rest
    else c :: pyTitleAux false rest

/-- Python `str.title`. -/
def pyTitle (s : List Char) : List Char := pyTitleAux false s

/-- One pass of `dict.fromkeys` with the set of already-seen keys. -/
def pyDedupAcc [DecidableEq α] (seen : List α) : List α → List α
  | [] => []
  | a :: as =>
    if a ∈ seen then pyDedupAcc seen as
    else a :: pyDedupAcc (a :: seen) as

/-- Python `list(dict.fromkeys(l))`: deduplicate keeping first occurrences. -/
def pyDedup [DecidableEq α] (l : List α) : List α := pyDedupAcc [] l

/-- Python `round` on the rational model of a float: round half to even. -/
def pyRound (q : ℚ) : ℤ :=
  let f : ℤ := ⌊q⌋
  let r : ℚ := q - f
  if r < 1/2 then f
  else if 1/2 < r then f + 1
  else if f % 2 = 0 then f else f + 1

/-! ### A small backtracking regex engine

Only the constructs used by the repository's patterns are supported:
single characters from a class, literal strings (optionally
case-insensitive), greedy `*`/`+`/`{n}`/`{n,}` over a character class,
optional literals, ordered alternation groups, and `\b` word boundaries.
All patterns in the sources are matched with Python's leftmost,
greedy-with-backtracking semantics. -/

/-- One token of a pattern. `grp` is an ordered alternation of token
sequences (used for `(a|b)` and `(...)?` groups). -/
inductive RTok where
  | one (p : Char → Bool)
  | lits (s : List Char) (ci : Bool)
  | optLit (s : List Char) (ci : Bool)
  | starCls (p : Char → Bool)
  | plusCls (p : Char → Bool)
  | repCls (n : ℕ) (p : Char → Bool)
  | minCls (n : ℕ) (p : Char → Bool)
  | optCls (p : Char → Bool)
  | grp (alts : List (List RTok))
  | wb

/-- Word-boundary test between a previous character and the rest of the input. -/
def atBoundary (prev : Option Char) (s : List Char) : Bool :=
  let pw := match prev with | some c => isWordCh c | none => false
  let nw := match s with | c :: _ => isWordCh c | [] => false
  pw != nw

/-- Literal match (case-insensitive when `ci`), returning last char and rest. -/
def matchLit (ci : Bool) : List Char → Option Char → List Char →
    Option (Option Char × List Char)
  | [], prev, s => some (prev, s)
  | l :: ls, _, c :: s =>
    if (if ci then lowerCh c = lowerCh l else c = l) then matchLit ci ls (some c) s
    else none
  | _ :: _, _, [] => none

/-- All ways to consume an initial run of class characters: `(k, lastChar,
rest)` for `k = 0, 1, …` up to the maximal run, in increasing order. -/
def clsRuns (p : Char → Bool) : Option Char → List Char →
    List (ℕ × Option Char × List Char)
  | prev, [] => [(0, prev, [])]
  | prev, c :: rest =>
    (0, prev, c :: rest) ::
      (if p c then (clsRuns p (some c) rest).map (fun t => (t.1 + 1, t.2.1, t.2.2))
       else [])

/-- Match a token list at the start of `s` (Python's anchored, greedy,
backtracking semantics); returns the last consumed char and the rest after
the first match found in backtracking priority order.  `fuel` only bounds the
recursion depth; `sizeOf toks` always suffices (every step shrinks the
token measure). -/
def matchFrom : ℕ → List RTok → Option Char → List Char →
    Option (Option Char × List Char)
  | 0, _, _, _ => none
  | _ + 1, [], prev, s => some (prev, s)
  | fuel + 1, t :: ts, prev, s =>
    match t with
    | .one p =>
      match s with
      | c :: r => if p c then matchFrom fuel ts (some c) r else none
      | [] => none
    | .lits l ci =>
      match matchLit ci l prev s with
      | some (pr, r) => matchFrom fuel ts pr r
      | none => none
    | .optLit l ci =>
      match matchLit ci l prev s with
      | some (pr, r) =>
        match matchFrom fuel ts pr r with
        | some res => some res
        | none => matchFrom fuel ts prev s
      | none => matchFrom fuel ts prev s
    | .starCls p =>
      (clsRuns p prev s).reverse.findSome?
        (fun t => matchFrom fuel ts t.2.1 t.2.2)
    | .plusCls p =>
      (clsRuns p prev s).reverse.findSome?
        (fun t => if t.1 ≥ 1 then matchFrom fuel ts t.2.1 t.2.2 else none)
    | .repCls n p =>
      (clsRuns p prev s).findSome?
        (fun t => if t.1 = n then matchFrom fuel ts t.2.1 t.2.2 else none)
    | .minCls n p =>
      (clsRuns p prev s).reverse.findSome?
        (fun t => if t.1 ≥ n then matchFrom fuel ts t.2.1 t.2.2 else none)
    | .optCls p =>
      match s with
      | c :: r =>
        if p c then
          match matchFrom fuel ts (some c) r with
          | some res => some res
          | none => matchFrom fuel ts prev s
        else matchFrom fuel ts prev s
      | [] => matchFrom fuel ts prev s
    | .grp alts =>
      alts.findSome? (fun alt => matchFrom fuel (alt ++ ts) prev s)
    | .wb =>
      if atBoundary prev s then matchFrom fuel ts prev s else none

mutual

/-- Size of one token (a `grp` counts its alternatives). -/
def tokSize : RTok → ℕ
  | .grp alts => 1 + altsSize alts
  | _ => 1

/-- Total size of a list of alternatives. -/
def altsSize : List (List RTok) → ℕ
  | [] => 0
  | a :: as => toksSize a + altsSize as

/-- Total size of a token list. -/
def toksSize : List RTok → ℕ
  | [] => 0
  | t :: ts => tokSize t + toksSize ts

end

/-- Fuel that always suffices for `matchFrom` (the token measure shrinks at
every recursive call). -/
def toksFuel (toks : List RTok) : ℕ := toksSize toks + 1

/-- Match `toks` anchored at the start of `s`; return the rest after the match. -/
def matchToks (toks : List RTok) (prev : Option Char) (s : List Char) :
    Option (Option Char × List Char) :=
  matchFrom (toksFuel toks) toks prev s

/-- Python `re.search` scanning: returns `(before, matched, lastCharOfMatch,
after)` for the leftmost match, threading the previous character for `\b`. -/
def searchAux (toks : List RTok) : Option Char → List Char →
    Option (List Char × List Char × Option Char × List Char)
  | prev, [] =>
    (match matchToks toks prev [] with
     | some (pr, rest) => some ([], [], pr, rest)
     | none => none)
  | prev, c :: r =>
    match matchToks toks prev (c :: r) with
    | some (pr, rest) =>
      some ([], (c :: r).take ((c :: r).length - rest.length), pr, rest)
    | none =>
      match searchAux toks (some c) r with
      | some (pre, m, pr, rest) => some (c :: pre, m, pr, rest)
      | none => none

/-- Python `re.search(pat, s)`: the matched substring of the leftmost match. -/
def reSearch (toks : List RTok) (s : List Char) : Option (List Char) :=
  match searchAux toks none s with
  | some (_, m, _, _) => some m
  | none => none

/-- Python `re.sub(pat, repl, s)` (global): replace every non-overlapping
leftmost match.  A zero-width match consumes one original character after
its replacement, as CPython does. -/
def gsubAux (toks : List RTok) (repl : List Char) :
    ℕ → Option Char → List Char → List Char
  | 0, _, s => s
  | _ + 1, prev, [] =>
    (match matchToks toks prev [] with
     | some _ => repl
     | none => [])
  | fuel + 1, prev, s =>
    match searchAux toks prev s with
    | none => s
    | some (pre, m, pr, rest) =>
      if m = [] then
        match rest with
        | [] => pre ++ repl
        | c :: r => pre ++ repl ++ c :: gsubAux toks repl fuel (some c) r
      else pre ++ repl ++ gsubAux toks repl fuel pr rest

/-- Python `re.sub(pat, repl, s)` (replace all matches). -/
def gsub (toks : List RTok) (repl : List Char) (s : List Char) : List Char :=
  gsubAux toks repl (s.length + 1) none s

/-- Count the matches of `re.findall(pat, s)` (non-overlapping, leftmost). -/
def findCountAux (toks : List RTok) : ℕ → Option Char → List Char → ℕ
  | 0, _, _ => 0
  | _ + 1, prev, [] =>
    (match matchToks toks prev [] with
     | some _ => 1
     | none => 0)
  | fuel + 1, prev, s =>
    match searchAux toks prev s with
    | none => 0
    | some (_, m, pr, rest) =>
      if m = [] then
        match rest with
        | [] => 1
        | c :: r => 1 + findCountAux toks fuel (some c) r
      else 1 + findCountAux toks fuel pr rest

/-- `len(re.findall(pat, s))`. -/
def findCount (toks : List RTok) (s : List Char) : ℕ :=
  findCountAux toks (s.length + 1) none s

/-- The matches of `re.findall(pat, s)` for a pattern without groups. -/
def findAllAux (toks : List RTok) : ℕ → Option Char → List Char →
    List (List Char)
  | 0, _, _ => []
  | _ + 1, prev, [] =>
    (match matchToks toks prev [] with
     | some _ => [[]]
     | none => [])
  | fuel + 1, prev, s =>
    match searchAux toks prev s with
    | none => []
    | some (_, m, pr, rest) =>
      if m = [] then
        match rest with
        | [] => [m]
        | c :: r => m :: findAllAux toks fuel (some c) r
      else m :: findAllAux toks fuel pr rest

/-- `re.findall(pat, s)` (pattern without groups). -/
def findAll (toks : List RTok) (s : List Char) : List (List Char) :=
  findAllAux toks (s.length + 1) none s

/-! ### Data model

`ResumeRecord` dicts are built by the parser (`resume_parser._extract_from_text`
and `_extract_from_docx`) and by manual entry in `app.py`; both initialise
every field, so a structure with empty sentinels is a faithful model.
`responsibilities` is a list of strings when built by the parser and a plain
string when built by manual entry, hence a sum type. -/

inductive RespV where
  | rstr (v : List Char)
  | rlist (v : List (List Char))
deriving DecidableEq

/-- Python truthiness of a responsibilities value. -/
def RespV.truthy : RespV → Bool
  | .rstr v => v ≠ []
  | .rlist v => v ≠ []

/-- One structured experience entry (`{title, company, duration, [location],
responsibilities}`). -/
structure ExpEntry where
  title : List Char := []
  company : List Char := []
  duration : List Char := []
  elocation : List Char := []
  responsibilities : RespV := .rlist []
deriving DecidableEq

/-- One structured education entry from manual entry. -/
structure EduEntry where
  degree : List Char := []
  institution : List Char := []
  year : List Char := []
  gpa : List Char := []
deriving DecidableEq

/-- One structured project entry from manual entry. -/
structure ProjEntry where
  pname : List Char := []
  tech : List Char := []
  plink : List Char := []
  pduration : List Char := []
  description : List Char := []
deriving DecidableEq

/-- The resume record. -/
structure ResRec where
  name : List Char := []
  email : List Char := []
  phone : List Char := []
  linkedin : List Char := []
  github : List Char := []
  website : List Char := []
  location : List Char := []
  summary : List Char := []
  skills : List (List Char) := []
  certifications : List (List Char) := []
  languages : List Char := []
  education_text : List Char := []
  experience_text : List Char := []
  projects_text : List Char := []
  education_entries : List EduEntry := []
  experience_entries : List ExpEntry := []
  project_entries : List ProjEntry := []
  full_text : List Char := []
deriving DecidableEq

/-- Python `repr` of a string: quote choice and quote/backslash escaping
(control-character escapes are elided; the fields here hold printable text). -/
def pyReprStr (s : List Char) : List Char :=
  let q := if s.contains apos && !s.contains '"' then '"' else apos
  q :: s.flatMap (fun c =>
    if c = '\\' then ['\\', '\\'] else if c = q then ['\\', c] else [c]) ++ [q]

/-- Python `str` of a list of strings (its `repr`). -/
def pyReprStrList (l : List (List Char)) : List Char :=
  sl "[" ++ joinSep (sl ", ") (l.map pyReprStr) ++ sl "]"

/-- Python `str(v)` for a responsibilities value. -/
def RespV.pyStr : RespV → List Char
  | .rstr v => v
  | .rlist v => pyReprStrList v

/-! ### `ats_scorer._BuiltinScorer` -/

/-- `_BuiltinScorer.TECHNICAL_KEYWORDS`. -/
def TECHNICAL_KEYWORDS : List (List Char) :=
  [sl "python", sl "javascript", sl "java", sl "c++", sl "c#", sl "react",
   sl "angular", sl "vue", sl "node.js", sl "django", sl "flask", sl "spring",
   sl "aws", sl "azure", sl "gcp", sl "docker", sl "kubernetes",
   sl "machine learning", sl "deep learning", sl "tensorflow", sl "pytorch",
   sl "sql", sl "postgresql", sl "mongodb", sl "redis", sl "git", sl "github",
   sl "ci/cd", sl "agile", sl "scrum", sl "devops", sl "html", sl "css",
   sl "typescript", sl "graphql", sl "rest api", sl "microservices",
   sl "linux", sl "data science", sl "artificial intelligence", sl "nlp",
   sl "computer vision", sl "blockchain", sl "generative ai", sl "llm",
   sl "langchain", sl "hugging face", sl "fastapi", sl "streamlit",
   sl "flutter", sl "android", sl "reinforcement learning", sl "transformers",
   sl "bert", sl "fine-tuning", sl "rag", sl "crewai", sl "mlflow",
   sl "oracle"]

/-- `_BuiltinScorer.SOFT_SKILLS`. -/
def SOFT_SKILLS : List (List Char) :=
  [sl "leadership", sl "communication", sl "teamwork", sl "problem solving",
   sl "analytical", sl "project management", sl "critical thinking",
   sl "collaboration", sl "adaptable", sl "organized", sl "detail-oriented",
   sl "self-motivated", sl "innovative", sl "strategic", sl "mentoring",
   sl "coaching"]

/-- `_BuiltinScorer.POWER_VERBS`. -/
def POWER_VERBS : List (List Char) :=
  [sl "achieved", sl "improved", sl "reduced", sl "increased", sl "developed",
   sl "launched", sl "managed", sl "led", sl "created", sl "built",
   sl "designed", sl "implemented", sl "delivered", sl "optimized",
   sl "streamlined", sl "automated", sl "collaborated", sl "mentored",
   sl "trained", sl "analyzed", sl "evaluated", sl "generated", sl "enhanced",
   sl "accelerated", sl "drove", sl "established", sl "spearheaded",
   sl "orchestrated", sl "transformed", sl "scaled"]

/-- Upper-case ASCII letters (`[A-Z]`). -/
def isUpperCh (c : Char) : Bool := 'A' ≤ c && c ≤ 'Z'

/-- Lower-case ASCII letters (`[a-z]`). -/
def isLowerCh (c : Char) : Bool := 'a' ≤ c && c ≤ 'z'

/-- Any character except a newline (the regex `.`). -/
def notNLCh (c : Char) : Bool := c ≠ '\n'

/-- `_BuiltinScorer.QUANTIFIERS`, each compiled (all applied with `re.I`). -/
def QUANT_TOKS : List (List RTok) :=
  [[.plusCls isDigitCh, .lits (sl "%") true],
   [.lits (sl "$") true, .plusCls isDigitCh],
   [.plusCls isDigitCh, .lits (sl "x") true],
   [.plusCls isDigitCh, .lits (sl "+") true],
   [.plusCls isDigitCh, .lits (sl " ") true,
    .grp [[.lits (sl "percent") true], [.lits (sl "million") true],
          [.lits (sl "billion") true], [.lits (sl "thousand") true]]],
   [.grp [[.lits (sl "increased") true], [.lits (sl "decreased") true],
          [.lits (sl "reduced") true], [.lits (sl "improved") true]],
    .starCls notNLCh, .plusCls isDigitCh]]

/-- `sum(len(re.findall(p, text, re.I)) for p in QUANTIFIERS)`. -/
def quantCount (text : List Char) : ℕ :=
  QUANT_TOKS.foldl (fun acc p => acc + findCount p text) 0

/-- `_BuiltinScorer._full_text`: join the raw text and every populated field. -/
def scFullText (data : ResRec) (raw : List Char) : List Char :=
  let parts := [raw]
    ++ (if data.summary ≠ [] then [data.summary] else [])
    ++ (if data.experience_text ≠ [] then [data.experience_text] else [])
    ++ (if data.education_text ≠ [] then [data.education_text] else [])
    ++ (if data.projects_text ≠ [] then [data.projects_text] else [])
    ++ (if data.skills ≠ [] then [joinSep (sl " ") data.skills] else [])
    ++ (if data.certifications ≠ [] then [joinSep (sl " ") data.certifications] else [])
    ++ (data.experience_entries.flatMap (fun e =>
          (if e.title ≠ [] then [e.title] else [])
          ++ (if e.company ≠ [] then [e.company] else [])
          ++ (if e.responsibilities.truthy then [e.responsibilities.pyStr] else [])))
    ++ (data.project_entries.flatMap (fun e =>
          (if e.pname ≠ [] then [e.pname] else [])
          ++ (if e.tech ≠ [] then [e.tech] else [])
          ++ (if e.description ≠ [] then [e.description] else [])))
  joinSep (sl " ") parts

/-- `_has` on a plain string field: `isinstance(v, str) and v.strip()`. -/
def hasStrField (v : List Char) : Bool := pyStrip v ≠ []

/-- `_has` element test for an experience-entry dict: `any(i.values())`. -/
def entryTruthy (e : ExpEntry) : Bool :=
  e.title ≠ [] || e.company ≠ [] || e.duration ≠ [] || e.elocation ≠ []
    || e.responsibilities.truthy

/-- `_has` element test for an education-entry dict. -/
def eduTruthy (e : EduEntry) : Bool :=
  e.degree ≠ [] || e.institution ≠ [] || e.year ≠ [] || e.gpa ≠ []

/-- The seven `(present?, points, message)` rows of `_BuiltinScorer._sections`. -/
def secChecks (data : ResRec) : List (Bool × ℚ × List Char) :=
  [(hasStrField data.name, 10, sl "Add your full name"),
   (hasStrField data.email, 10, sl "Add a professional email"),
   (hasStrField data.phone, 8, sl "Add your phone number"),
   (hasStrField data.summary, 15, sl "Add a professional summary"),
   (data.skills.any (fun s => pyStrip s ≠ []), 20, sl "Add a dedicated skills section"),
   (hasStrField data.experience_text || data.experience_entries.any entryTruthy,
    20, sl "Add work experience"),
   (hasStrField data.education_text || data.education_entries.any eduTruthy,
    17, sl "Add your education")]

/-- `_BuiltinScorer._sections`. -/
def sections_score (data : ResRec) : ℚ × List (List Char) :=
  let score := (secChecks data).foldl (fun acc c => if c.1 then acc + c.2.1 else acc) 0
  let sg := ((secChecks data).filter (fun c => !c.1)).map (fun c => c.2.2)
  (min 100 score, sg)

/-- The skip set of `_BuiltinScorer._jd_kws`. -/
def JD_SKIP : List (List Char) :=
  [sl "The", sl "This", sl "That", sl "With", sl "Will", sl "Must", sl "Have",
   sl "Your", sl "Our", sl "We", sl "You", sl "Are", sl "For", sl "And",
   sl "Not", sl "Any", sl "All", sl "Can", sl "Would", sl "Should",
   sl "Could", sl "Team", sl "Work", sl "Help", sl "Role", sl "Job",
   sl "Years", sl "Strong", sl "Good"]

/-- The capitalized-word pattern `\b[A-Z][a-zA-Z]{2,}\b` of `_jd_kws`. -/
def capsToks : List RTok := [.wb, .one isUpperCh, .minCls 2 isAlphaCh, .wb]

/-- `_BuiltinScorer._jd_kws`.  CPython returns `list(set(kws))` whose order
is unspecified; it is modelled as first-occurrence order — downstream uses
only membership and length for the scores. -/
def jd_kws (jd : List Char) : List (List Char) :=
  let jd_l := pyLower jd
  let kws := TECHNICAL_KEYWORDS.filter (fun k => containsSub k jd_l)
  let kws := (findAll capsToks jd).foldl
    (fun acc w => if !JD_SKIP.contains w && !acc.contains w then acc ++ [w] else acc)
    kws
  pyDedup kws

/-- `_BuiltinScorer._keywords`: score, suggestions, missing keywords. -/
def keywords_score (text jd : List Char) :
    ℚ × List (List Char) × List (List Char) :=
  let found_tech := TECHNICAL_KEYWORDS.filter (fun k => containsSub k text)
  let s1 : ℚ := min 50 ((found_tech.length : ℚ) / (TECHNICAL_KEYWORDS.length : ℚ) * 100)
  let sg1 := if found_tech.length < 5 then
    [sl "Add more technical skills relevant to your role"] else []
  let found_soft := SOFT_SKILLS.filter (fun k => containsSub k text)
  let s2 : ℚ := min 20 ((found_soft.length : ℚ) / (SOFT_SKILLS.length : ℚ) * 100)
  let sg2 := if found_soft.length < 3 then
    [sl "Include soft skills like leadership and communication"] else []
  let found_verbs := POWER_VERBS.filter (fun v => containsSub v text)
  let s3 : ℚ := min 30 ((found_verbs.length : ℚ) / (POWER_VERBS.length : ℚ) * 100)
  let sg3 := if found_verbs.length < 5 then
    [sl "Use strong action verbs: achieved, led, implemented, optimized"] else []
  let miss3 := if found_verbs.length < 5 then
    [sl "achieved", sl "led", sl "implemented", sl "optimized", sl "developed"]
    else []
  let jdPart :=
    if jd ≠ [] then
      let kws := jd_kws jd
      let miss := kws.filter (fun k => !containsSub (pyLower k) text)
      let sgj := if (miss.length : ℚ) / (max (kws.length : ℚ) 1) > 1/2 then
        [sl "Add job-description keywords: " ++ joinSep (sl ", ") (miss.take 5)]
        else []
      (miss.take 10, sgj)
    else ([], [])
  (min 100 (s1 + s2 + s3), sg1 ++ sg2 ++ sg3 ++ jdPart.2, miss3 ++ jdPart.1)

/-- `_BuiltinScorer._content`. -/
def content_score (text : List Char) (data : ResRec) : ℚ × List (List Char) :=
  let qc := quantCount text
  let p1 : ℚ × List (List Char) :=
    if qc ≥ 5 then (30, [])
    else if qc ≥ 3 then (20, [sl "Add more quantified achievements (%, $, numbers)"])
    else if qc ≥ 1 then (10, [sl "Quantify achievements with metrics"])
    else (0, [sl "Add specific numbers to your achievements"])
  let s := data.summary
  let p2 : ℚ × List (List Char) :=
    if s.length > 100 then (20, [])
    else if s.length > 50 then (10, [sl "Expand your summary to 3-4 sentences"])
    else (0, [sl "Write a compelling 3-4 sentence professional summary"])
  let p3 : ℚ × List (List Char) :=
    if data.skills.length ≥ 10 then (25, [])
    else if data.skills.length ≥ 5 then
      (15, [sl "Add more skills to strengthen your profile"])
    else (5, [sl "List at least 10 relevant skills"])
  let vc := POWER_VERBS.countP (fun v => containsSub v text)
  let p4 : ℚ × List (List Char) :=
    if vc ≥ 8 then (25, [])
    else if vc ≥ 5 then (15, [])
    else if vc ≥ 2 then (8, [])
    else (0, [sl "Start bullet points with strong action verbs"])
  (min 100 (p1.1 + p2.1 + p3.1 + p4.1), p1.2 ++ p2.2 ++ p3.2 ++ p4.2)

/-- `_BuiltinScorer._format`. -/
def format_score (data : ResRec) (full : List Char) : ℚ × List (List Char) :=
  let mc := (if data.name = [] then [sl "name"] else [])
    ++ (if data.email = [] then [sl "email"] else [])
    ++ (if data.phone = [] then [sl "phone"] else [])
  let s1 : ℚ × List (List Char) :=
    if mc ≠ [] then
      (60 - 10 * mc.length, [sl "Missing contact info: " ++ joinSep (sl ", ") mc])
    else (60 + 15, [])
  let s2 : ℚ × List (List Char) :=
    if data.linkedin ≠ [] then (s1.1 + 10, s1.2)
    else (s1.1, s1.2 ++ [sl "Add your LinkedIn profile URL"])
  let wc := (splitWS full).length
  let s3 : ℚ × List (List Char) :=
    if 300 ≤ wc && wc ≤ 900 then (s2.1 + 15, s2.2)
    else if wc < 300 then (s2.1 - 10, s2.2 ++ [sl "Resume too short — add more detail"])
    else s2
  (min 100 (max 0 s3.1), s3.2)

/-- `_BuiltinScorer._jd_match`. -/
def jd_match (text jd : List Char) : ℚ :=
  let kws := jd_kws jd
  if kws = [] then 0
  else ((kws.countP (fun k => containsSub (pyLower k) text) : ℚ)) / (kws.length : ℚ)

/-- The result dict of `_BuiltinScorer.calculate`. -/
structure ScoreOut where
  overall_score : ℤ
  keyword_score : ℤ
  format_score : ℤ
  content_score : ℤ
  section_score : ℤ
  suggestions : List (List Char)
  missing_keywords : List (List Char)
  power_verb_count : ℕ
  quantified_achievements : ℕ
  source : List Char
deriving DecidableEq

/-- `_BuiltinScorer.calculate` (float arithmetic modelled with exact
rationals; `round` is Python's round-half-to-even). -/
def calculate (data : ResRec) (raw_text : List Char) (jd : List Char := []) :
    ScoreOut :=
  let full := scFullText data raw_text
  let full_lower := pyLower full
  let secr := sections_score data
  let kwr := keywords_score full_lower jd
  let conr := content_score full_lower data
  let fmtr := format_score data full
  let overall0 : ℚ := secr.1 * (1/4) + kwr.1 * (3/10) + conr.1 * (1/4) + fmtr.1 * (1/5)
  let overall : ℚ :=
    if jd ≠ [] then min 100 (overall0 + jd_match full_lower jd * 10) else overall0
  { overall_score := pyRound overall
    keyword_score := pyRound kwr.1
    format_score := pyRound fmtr.1
    content_score := pyRound conr.1
    section_score := pyRound secr.1
    suggestions := (secr.2 ++ kwr.2.1 ++ conr.2 ++ fmtr.2).take 8
    missing_keywords := kwr.2.2.take 15
    power_verb_count := POWER_VERBS.countP (fun v => containsSub v full_lower)
    quantified_achievements := quantCount full
    source := sl "Built-in" }

/-! ### `ai_enhancer.AIEnhancer` — deterministic (rule-based) path -/

/-- The `[\w\s]` class. -/
def wsCls (c : Char) : Bool := isWordCh c || isSpaceCh c

/-- The ordered rule table of `AIEnhancer._rewrite_bullets`
(pattern, replacement); all patterns are anchored `^` and case-insensitive. -/
def bulletRules : List (List RTok × List Char) :=
  [([.lits (sl "As a") true, .optLit (sl "n") true, .lits (sl " ") true,
     .plusCls wsCls, .lits (sl " at ") true, .plusCls wsCls,
     .lits (sl ", I") true, .plusCls isSpaceCh], []),
   ([.lits (sl "As a") true, .optLit (sl "n") true, .lits (sl " ") true,
     .plusCls wsCls, .lits (sl ", I") true, .plusCls isSpaceCh], []),
   ([.lits (sl "I contributed to") true, .wb], sl "Collaborated to deliver"),
   ([.lits (sl "Contributed to the design and development of") true, .wb],
    sl "Designed and developed"),
   ([.lits (sl "Contributed to") true, .wb], sl "Collaborated to deliver"),
   ([.lits (sl "Leading the development of") true, .wb],
    sl "Led end-to-end development of"),
   ([.lits (sl "Was responsible for") true, .wb], sl "Managed"),
   ([.lits (sl "Helped ") true,
     .grp [[.lits (sl "with ") true], [.lits (sl "to ") true], []]],
    sl "Assisted in "),
   ([.lits (sl "Worked on") true, .wb], sl "Developed"),
   ([.lits (sl "Used") true, .wb], sl "Leveraged"),
   ([.lits (sl "Made") true, .wb], sl "Created"),
   ([.lits (sl "Did") true, .wb], sl "Executed"),
   ([.lits (sl "Provided") true, .wb], sl "Delivered"),
   ([.lits (sl "Implemented a") true, .wb], sl "Engineered a"),
   ([.lits (sl "Designed to") true, .wb], sl "Developed to")]

/-- Try the rules in order: the first pattern whose single anchored
substitution changes the line wins (`new != improved` then `break`). -/
def applyRules : List (List RTok × List Char) → List Char → List Char
  | [], line => line
  | (toks, repl) :: rest, line =>
    let nw := match matchToks toks none line with
      | some (_, r) => repl ++ r
      | none => line
    if nw ≠ line then pyStrip nw else applyRules rest line

/-- One line of `AIEnhancer._rewrite_bullets`. -/
def rewriteLine (line : List Char) : List Char :=
  let stripped := pyLStrip (sl "•-* ") (pyStrip line)
  if stripped = [] then line
  else
    let improved := applyRules bulletRules stripped
    let improved := match improved with
      | c :: rest => if isLowerCh c then upperCh c :: rest else c :: rest
      | [] => []
    let pre := if startsWith (sl "• ") line then sl "• "
      else if startsWith (sl "- ") line then sl "- " else []
    pre ++ improved

/-- `AIEnhancer._rewrite_bullets`. -/
def rewrite_bullets (text : List Char) : List Char :=
  joinSep (sl "\n") ((splitOnCh '\n' text).map rewriteLine)

/-- The `(\d+)\+?\s*year` pattern of `_rewrite_summary` (case-insensitive). -/
def yearToks : List RTok :=
  [.plusCls isDigitCh, .optLit (sl "+") false, .starCls isSpaceCh,
   .lits (sl "year") true]

/-- `AIEnhancer._infer_role`. -/
def infer_role (exp_text : List Char) (skills : List (List Char)) : List Char :=
  let text := pyLower (exp_text ++ sl " " ++ joinSep (sl " ") skills)
  if containsSub (sl "flutter") text then sl "Flutter Developer"
  else if containsSub (sl "machine learning") text || containsSub (sl "aiml") text then
    sl "AI/ML Engineer"
  else if containsSub (sl "react") text || containsSub (sl "frontend") text then
    sl "Frontend Developer"
  else if containsSub (sl "node") text || containsSub (sl "backend") text then
    sl "Backend Developer"
  else if containsSub (sl "python") text then sl "Python Developer"
  else sl "Software Developer"

/-- `AIEnhancer._extract_impact`: first experience line with a digit and
length strictly between 20 and 120. -/
def extract_impact (exp_text : List Char) : List Char :=
  match (splitOnCh '\n' exp_text).find?
      (fun line => line.any (fun c => isDigitCh c)
        && 20 < line.length && line.length < 120) with
  | some line => pyLStrip (sl "•-* ") (pyStrip line)
  | none => []

/-- `AIEnhancer._rewrite_summary`. -/
def rewrite_summary (original : List Char) (skills : List (List Char))
    (exp_text role : List Char) : List Char :=
  let skills_str := if skills ≠ [] then joinSep (sl ", ") (skills.take 5)
    else sl "modern technologies"
  let role_str := if role ≠ [] then role else infer_role exp_text skills
  let yrs_str := match reSearch yearToks original with
    | some m => m.takeWhile (fun c => isDigitCh c) ++ sl "+ years of "
    | none => []
  let impact := extract_impact exp_text
  let impact_sentence := if impact ≠ [] then sl " " ++ impact else []
  sl "Results-driven " ++ role_str ++ sl " with " ++ yrs_str
    ++ sl "hands-on expertise in " ++ skills_str ++ sl ". "
    ++ sl "Proven ability to design and deliver scalable, high-quality solutions that drive measurable impact."
    ++ impact_sentence ++ sl " "
    ++ sl "Thrives in collaborative environments with a strong focus on engineering excellence, continuous learning, and innovation."

/-- The role-keyword buckets of `AIEnhancer._expand_skills`. -/
def role_map : List (List Char × List (List Char)) :=
  [(sl "flutter", [sl "Flutter", sl "Dart", sl "Android", sl "iOS",
      sl "Firebase", sl "REST API", sl "Mobile Development"]),
   (sl "android", [sl "Android", sl "Kotlin", sl "Java", sl "Firebase",
      sl "REST API", sl "Material Design"]),
   (sl "frontend", [sl "HTML", sl "CSS", sl "JavaScript", sl "React",
      sl "Responsive Design", sl "UI/UX"]),
   (sl "backend", [sl "Node.js", sl "REST API", sl "SQL", sl "MongoDB",
      sl "Express", sl "Microservices"]),
   (sl "python", [sl "Python", sl "Django", sl "FastAPI", sl "Pandas",
      sl "NumPy", sl "SQL"]),
   (sl "ml", [sl "Machine Learning", sl "Python", sl "TensorFlow",
      sl "Scikit-learn", sl "Data Analysis"]),
   (sl "aiml", [sl "Python", sl "TensorFlow", sl "PyTorch", sl "NLP",
      sl "Machine Learning", sl "Deep Learning"])]

/-- The five generic professional skills appended by `_expand_skills`. -/
def professionalSkills : List (List Char) :=
  [sl "Git", sl "Agile", sl "Problem Solving", sl "Team Collaboration",
   sl "Communication"]

/-- `AIEnhancer._expand_skills`.  `existing_lower` is computed once before
the loop, exactly as in the source. -/
def expand_skills (skills : List (List Char)) (role jd : List Char) :
    List (List Char) :=
  let existing_lower := skills.map pyLower
  let all_text := pyLower (role ++ sl " " ++ joinSep (sl " ") skills)
  let to_add := role_map.foldl (fun acc kv =>
    if containsSub kv.1 all_text then
      acc ++ kv.2.filter (fun s => !existing_lower.contains (pyLower s))
    else acc) []
  let to_add := to_add
    ++ professionalSkills.filter (fun s => !existing_lower.contains (pyLower s))
  (pyDedup (skills ++ to_add)).take 25

/-- `AIEnhancer._build_full_text`. -/
def build_full_text (data : ResRec) : List Char :=
  let parts := (if data.name ≠ [] then [data.name] else [])
    ++ (if data.email ≠ [] then [data.email] else [])
    ++ (if data.summary ≠ [] then [data.summary] else [])
    ++ (if data.experience_text ≠ [] then [data.experience_text] else [])
    ++ (if data.education_text ≠ [] then [data.education_text] else [])
    ++ (if data.projects_text ≠ [] then [data.projects_text] else [])
    ++ (if data.skills ≠ [] then [joinSep (sl ", ") data.skills] else [])
    ++ (if data.certifications ≠ [] then [joinSep (sl ", ") data.certifications] else [])
    ++ (data.experience_entries.flatMap (fun e =>
          (if e.title ≠ [] then [e.title] else [])
          ++ (if e.company ≠ [] then [e.company] else [])
          ++ (match e.responsibilities with
              | .rlist l => l
              | .rstr s => if s ≠ [] then [s] else [])))
    ++ (data.project_entries.flatMap (fun e =>
          (if e.pname ≠ [] then [e.pname] else [])
          ++ (if e.tech ≠ [] then [e.tech] else [])
          ++ (if e.description ≠ [] then [e.description] else [])))
  joinSep (sl " ") parts

/-- `AIEnhancer._rule_enhance`: the deterministic rewriter. -/
def rule_enhance (data : ResRec) (target_role : List Char := [])
    (jd : List Char := []) : ResRec :=
  let e1 := {data with
    summary := rewrite_summary data.summary data.skills data.experience_text
      target_role}
  let e2 := if data.experience_text ≠ [] then
      {e1 with experience_text := rewrite_bullets data.experience_text}
    else e1
  let e3 :=
    if data.experience_entries ≠ [] then
      let new_entries := data.experience_entries.map (fun ex =>
        if ex.responsibilities.truthy then
          let resp_text := match ex.responsibilities with
            | .rlist l => joinSep (sl "\n") l
            | .rstr s => s
          let newResp := RespV.rlist (splitOnCh '\n' (rewrite_bullets resp_text))
          {ex with responsibilities := newResp}
        else ex)
      let parts := new_entries.map (fun ex =>
        let header := ex.title ++ sl " | " ++ ex.company ++ sl " ("
          ++ ex.duration ++ sl ")"
        let lines := match ex.responsibilities with
          | .rlist l => (l.filter (fun r => pyStrip r ≠ [])).map
              (fun r => sl "• " ++ pyLStrip (sl "• ") r)
          | .rstr s => [s]
        header ++ sl "\n" ++ joinSep (sl "\n") lines)
      let e3a := {e2 with experience_entries := new_entries}
      if parts ≠ [] then {e3a with experience_text := joinSep (sl "\n\n") parts}
      else e3a
    else e2
  let e4 := if data.projects_text ≠ [] then
      {e3 with projects_text := rewrite_bullets data.projects_text}
    else e3
  let e5 := {e4 with skills := expand_skills data.skills target_role jd}
  {e5 with full_text := build_full_text e5}

/-- `AIEnhancer._is_improved`. -/
def is_improved (enhanced original : ResRec) : Bool :=
  [(original.summary, enhanced.summary),
   (original.experience_text, enhanced.experience_text),
   (original.projects_text, enhanced.projects_text)].any
    (fun p => pyStrip p.1 ≠ [] && pyStrip p.2 ≠ [] && pyStrip p.1 ≠ pyStrip p.2)

/-! ### `ai_enhancer.AIEnhancer` — GPT path and orchestration

The external OpenAI client is modelled as an oracle giving the outcome of
the n-th call; the prompt text and max-token hint are opaque to the
external-call model.  `_call` returns the stripped completion, returns `""`
on a non-quota error, and on a quota/429 error sets the sticky flag and
raises (modelled by `Except.error`). -/

inductive AIOutcome where
  | ok (text : List Char)
  | quotaErr
  | otherErr

/-- The orchestrator's mutable state: the sticky quota flag and how many
external calls were issued. -/
structure AIState where
  quotaExceeded : Bool
  callIdx : ℕ
deriving DecidableEq

/-- `AIEnhancer._call`. -/
def aiCall (oracle : ℕ → AIOutcome) (st : AIState) :
    Except Unit (List Char) × AIState :=
  if st.quotaExceeded then (.ok [], st)
  else match oracle st.callIdx with
    | .ok t => (.ok (pyStrip t), ⟨st.quotaExceeded, st.callIdx + 1⟩)
    | .quotaErr => (.error (), ⟨true, st.callIdx + 1⟩)
    | .otherErr => (.ok [], ⟨st.quotaExceeded, st.callIdx + 1⟩)

/-- Sequencing with exception propagation (a raised quota error aborts the
remaining calls of `_gpt_enhance`). -/
def bindE : Except Unit α × AIState →
    (α → AIState → Except Unit β × AIState) → Except Unit β × AIState
  | (.ok a, st), f => f a st
  | (.error e, st), _ => (.error e, st)

/-- The per-entry body of the `experience_entries` loop in `_gpt_enhance`.
`'\n'.join` of a plain string interleaves its characters, as in Python. -/
def gptEntryStep (oracle : ℕ → AIOutcome) (ex : ExpEntry) (st : AIState) :
    Except Unit ExpEntry × AIState :=
  let resp_text := match ex.responsibilities with
    | .rlist l => joinSep (sl "\n") l
    | .rstr s => joinSep (sl "\n") (s.map (fun c => [c]))
  if resp_text ≠ [] then
    bindE (aiCall oracle st) (fun r st' =>
      (.ok {ex with
              responsibilities :=
                .rlist (splitOnCh '\n' (if r ≠ [] then r else resp_text))},
       st'))
  else (.ok ex, st)

/-- The `experience_entries` loop of `_gpt_enhance`. -/
def gptEntriesLoop (oracle : ℕ → AIOutcome) :
    List ExpEntry → AIState → Except Unit (List ExpEntry) × AIState
  | [], st => (.ok [], st)
  | ex :: rest, st =>
    bindE (gptEntryStep oracle ex st) (fun e' st' =>
      bindE (gptEntriesLoop oracle rest st') (fun es st'' =>
        (.ok (e' :: es), st'')))

/-- `AIEnhancer._gpt_enhance`. -/
def gpt_enhance (oracle : ℕ → AIOutcome) (data : ResRec) (st : AIState) :
    Except Unit ResRec × AIState :=
  bindE (aiCall oracle st) (fun r1 st1 =>
    let e1 := {data with summary := if r1 ≠ [] then r1 else data.summary}
    bindE (if data.experience_text ≠ [] then
        bindE (aiCall oracle st1) (fun r st' =>
          (.ok {e1 with experience_text :=
            if r ≠ [] then r else data.experience_text}, st'))
      else (.ok e1, st1)) (fun e2 st2 =>
    bindE (if data.experience_entries ≠ [] then
        bindE (gptEntriesLoop oracle data.experience_entries st2)
          (fun es st' => (.ok {e2 with experience_entries := es}, st'))
      else (.ok e2, st2)) (fun e3 st3 =>
    bindE (if data.projects_text ≠ [] then
        bindE (aiCall oracle st3) (fun r st' =>
          (.ok {e3 with projects_text :=
            if r ≠ [] then r else data.projects_text}, st'))
      else (.ok e3, st3)) (fun e4 st4 =>
    bindE (if data.skills ≠ [] then
        bindE (aiCall oracle st4) (fun r st' =>
          if r ≠ [] then
            let new_skills := ((splitOnCh ',' r).map pyStrip).filter
              (fun s => s ≠ [])
            (.ok {e4 with skills :=
              (pyDedup (data.skills ++ new_skills)).take 25}, st')
          else (.ok e4, st'))
      else (.ok e4, st4)) (fun e5 st5 =>
    (.ok {e5 with full_text := build_full_text e5}, st5))))))

/-- `AIEnhancer.enhance_resume`.  `available` models the constructor's
client-configured flag; the returned dict is always truthy, so the success
branch is guarded by `_is_improved` alone. -/
def enhance_resume (oracle : ℕ → AIOutcome) (available : Bool)
    (st : AIState) (data : ResRec) (jd : List Char := [])
    (target_role : List Char := []) : ResRec × AIState :=
  if available && !st.quotaExceeded then
    match gpt_enhance oracle data st with
    | (.ok result, st') =>
      if is_improved result data then
        ({result with full_text := build_full_text result}, st')
      else (rule_enhance data target_role jd, st')
    | (.error _, st') => (rule_enhance data target_role jd, st')
  else (rule_enhance data target_role jd, st)

/-! ### `resume_parser.ResumeParser` -/

/-- The `[\w._%+-]` class of `email_re`. -/
def emailLocalCh (c : Char) : Bool :=
  isWordCh c || c = '.' || c = '%' || c = '+' || c = '-'

/-- The `[\w.-]` class of `email_re`. -/
def emailDomCh (c : Char) : Bool := isWordCh c || c = '.' || c = '-'

/-- `email_re`: `\b[\w._%+-]+@[\w.-]+\.[a-zA-Z]{2,}\b`. -/
def emailToks : List RTok :=
  [.wb, .plusCls emailLocalCh, .lits (sl "@") false, .plusCls emailDomCh,
   .lits (sl ".") false, .minCls 2 isAlphaCh, .wb]

/-- The `[\d\s.\-\(\)]` class of `phone_re`. -/
def phoneMidCh (c : Char) : Bool :=
  isDigitCh c || isSpaceCh c || c = '.' || c = '-' || c = '(' || c = ')'

/-- `phone_re`: `[\+\(]?[\d][\d\s.\-\(\)]{7,}[\d]`. -/
def phoneToks : List RTok :=
  [.optCls (fun c => c = '+' || c = '('), .one isDigitCh,
   .minCls 7 phoneMidCh, .one isDigitCh]

/-- `linkedin_re`: `linkedin\.com/in/[\w\-]+` (case-insensitive). -/
def linkedinToks : List RTok :=
  [.lits (sl "linkedin.com/in/") true, .plusCls (fun c => isWordCh c || c = '-')]

/-- `github_re`: `github.com/` then word chars, hyphens or slashes
(case-insensitive). -/
def githubToks : List RTok :=
  [.lits (sl "github.com/") true,
   .plusCls (fun c => isWordCh c || c = '-' || c = '/')]

/-- `[•|,]` in `_parse_contact_line`. -/
def contactSepToks : List RTok :=
  [.one (fun c => c = '•' || c = '|' || c = ',')]

/-- `\+?\d[\d\s\-\(\)]{6,}` in `_parse_contact_line`. -/
def phoneFragToks : List RTok :=
  [.optLit (sl "+") false, .one isDigitCh,
   .minCls 6 (fun c => isDigitCh c || isSpaceCh c || c = '-' || c = '(' || c = ')')]

/-- The phone normalisation block shared by `_parse_contact_line` and
`_extract_from_text`: strip non-digits, keep the last 10 if longer. -/
def truncDigits (m : List Char) : List Char :=
  let digits := m.filter (fun c => isDigitCh c)
  if digits.length > 10 then digits.drop (digits.length - 10) else digits

/-- `ResumeParser._parse_contact_line` (mutation of the record modelled by
explicit state passing). -/
def parse_contact_line (line : List Char) (data : ResRec) : ResRec :=
  let d1 := match reSearch emailToks line with
    | some m => {data with email := m}
    | none => data
  let d2 := match reSearch phoneToks line with
    | some m =>
      let digits := truncDigits m
      if digits.length ≥ 10 then {d1 with phone := digits} else d1
    | none => d1
  let d3 := match reSearch linkedinToks line with
    | some m => {d2 with linkedin := m}
    | none => d2
  let d4 := match reSearch githubToks line with
    | some m => {d3 with github := m, website := m}
    | none => d3
  let cleaned := gsub emailToks [] line
  let cleaned := gsub phoneToks [] cleaned
  let cleaned := gsub linkedinToks [] cleaned
  let cleaned := gsub githubToks [] cleaned
  let cleaned := gsub contactSepToks (sl " ") cleaned
  let cleaned := gsub phoneFragToks [] cleaned
  let cleaned := joinSep (sl " ") (splitWS cleaned)
  if cleaned ≠ [] && cleaned.length > 2 then
    {d4 with location := pyStrip cleaned}
  else d4

/-- `ResumeParser.section_keywords` in insertion order. -/
def section_keywords : List (List Char × List (List Char)) :=
  [(sl "summary", [sl "summary", sl "objective", sl "profile", sl "about",
      sl "overview", sl "professional summary"]),
   (sl "experience", [sl "experience", sl "employment", sl "work history",
      sl "work experience", sl "career"]),
   (sl "education", [sl "education", sl "academic", sl "qualification",
      sl "degree"]),
   (sl "skills", [sl "skills", sl "technical skills", sl "competencies",
      sl "expertise", sl "technologies", sl "skills & expertise"]),
   (sl "projects", [sl "projects", sl "portfolio", sl "achievements",
      sl "projects & achievements"]),
   (sl "certifications", [sl "certifications", sl "certificates",
      sl "licenses", sl "credentials"])]

/-- All trigger keywords flattened (`all_kws` in `_split_sections_text`). -/
def allSectionKws : List (List Char) :=
  section_keywords.flatMap (fun kv => kv.2)

/-- The header test of `_split_sections_text`. -/
def isHeaderLine (line : List Char) : Bool :=
  let ll := pyRStrip (sl ":") (pyStrip (pyLower line))
  allSectionKws.contains ll
  || (pyIsUpper line && 1 < (splitWS line).length && (splitWS line).length ≤ 5)
  || (endsWithCh ':' line && line.length < 40)

/-- Python dict assignment `d[k] = v` on an insertion-ordered dict. -/
def dictSet (d : List (List Char × α)) (k : List Char) (v : α) :
    List (List Char × α) :=
  if d.any (fun kv => kv.1 = k) then
    d.map (fun kv => if kv.1 = k then (k, v) else kv)
  else d ++ [(k, v)]

/-- `ResumeParser._split_sections_text`. -/
def split_sections_text (lines : List (List Char)) :
    List (List Char × List (List Char)) :=
  let step := lines.foldl
    (fun (acc : List (List Char × List (List Char)) × List Char × List (List Char)) line =>
      if isHeaderLine line then
        (dictSet acc.1 acc.2.1 acc.2.2,
         pyRStrip (sl ":") (pyStrip (pyLower line)), [])
      else (acc.1, acc.2.1, acc.2.2 ++ [line]))
    ([], sl "header", [])
  dictSet step.1 step.2.1 step.2.2

/-- `skip_words` of `_extract_name_from_lines`. -/
def SKIP_WORDS : List (List Char) :=
  [sl "resume", sl "cv", sl "profile", sl "summary", sl "education",
   sl "experience", sl "skills", sl "projects", sl "certifications",
   sl "contact", sl "objective", sl "professional"]

/-- `contact_sig` of `_extract_name_from_lines`. -/
def CONTACT_SIG : List (List Char) :=
  [sl "@", sl "github", sl "linkedin", sl "http", sl "www", sl ".com",
   sl ".in", sl "+91"]

/-- `is_contact` in `_extract_name_from_lines`. -/
def isContactLine (line : List Char) : Bool :=
  let ll := pyLower line
  CONTACT_SIG.any (fun s => containsSub s ll)
    || line.contains '|' || line.contains '•'

/-- `is_name` in `_extract_name_from_lines`: 2–4 tokens, none reserved,
every token only letters/hyphen/apostrophe. -/
def isNameTok (token : List Char) : Bool :=
  let words := splitWS (pyStrip token)
  (2 ≤ words.length && words.length ≤ 4)
  && !words.any (fun w => SKIP_WORDS.contains (pyLower w))
  && words.all (fun w => w ≠ [] && w.all (fun c => isAlphaCh c || c = '-' || c = apos))

/-- `https?://\S+`. -/
def urlToks : List RTok :=
  [.lits (sl "http") false, .optLit (sl "s") false, .lits (sl "://") false,
   .plusCls (fun c => !isSpaceCh c)]

/-- The location/noise-word pattern of pass 2 (case-insensitive). -/
def noiseToks : List RTok :=
  [.wb, .grp [[.lits (sl "Engineering") true], [.lits (sl "Location") true],
    [.lits (sl "Mumbai") true], [.lits (sl "Delhi") true],
    [.lits (sl "Bangalore") true], [.lits (sl "Vasai") true],
    [.lits (sl "Thane") true], [.lits (sl "Bhayadar") true],
    [.lits (sl "India") true]], .wb]

/-- The pass-2 punctuation class: pipe, bullet, comma, digits, plus,
parentheses, hyphen, slash. -/
def punctToks : List RTok :=
  [.one (fun c => c = '|' || c = '•' || c = ',' || isDigitCh c || c = '+'
    || c = '(' || c = ')' || c = '-' || c = '/')]

/-- `\S+\.\S+` of pass 3. -/
def dottedToks : List RTok :=
  [.plusCls (fun c => !isSpaceCh c), .lits (sl ".") false,
   .plusCls (fun c => !isSpaceCh c)]

/-- `ResumeParser._extract_name_from_lines` (its `data` argument is unused
in the source as well). -/
def extract_name_from_lines (lines : List (List Char)) : List Char :=
  match (lines.take 12).findSome? (fun line =>
      if !isContactLine line && isNameTok line then
        some (if pyIsUpper line then pyTitle line else line)
      else none) with
  | some n => n
  | none =>
    match (lines.take 5).findSome? (fun line =>
        let cleaned := gsub emailToks [] line
        let cleaned := gsub urlToks [] cleaned
        let cleaned := gsub githubToks [] cleaned
        let cleaned := gsub linkedinToks [] cleaned
        let cleaned := gsub noiseToks [] cleaned
        let cleaned := gsub punctToks (sl " ") cleaned
        let cleaned := joinSep (sl " ") (splitWS cleaned)
        if isNameTok cleaned then some (pyTitle cleaned) else none) with
    | some n => n
    | none =>
      let first := lines.headD []
      let last_seg := pyStrip ((splitOnCh '|' first).getLastD [])
      let last_seg := gsub dottedToks (sl " ") last_seg
      let words := splitWS last_seg
      match ([2, 3] : List ℕ).findSome? (fun n =>
          let candidate := joinSep (sl " ") (words.drop (words.length - n))
          if isNameTok candidate then some (pyTitle candidate) else none) with
      | some n => n
      | none => first.take 50

/-- `[•·|▸▪\n]` of `_parse_skills`. -/
def skillSepToks : List RTok :=
  [.one (fun c => c = '•' || c = '·' || c = '|' || c = '▸' || c = '▪' || c = '\n')]

/-- `[A-Za-z &/()]+:\s*` of `_parse_skills`. -/
def labelToks : List RTok :=
  [.plusCls (fun c => isAlphaCh c || c = ' ' || c = '&' || c = '/'
    || c = '(' || c = ')'),
   .lits (sl ":") false, .starCls isSpaceCh]

/-- `bad_starts` of `_parse_skills`. -/
def BAD_STARTS : List (List Char) :=
  [sl "demonstrating", sl "i am", sl "with", sl "and ", sl "the ",
   sl "other basics"]

/-- `ResumeParser._parse_skills`. -/
def parse_skills (body : List Char) : List (List Char) :=
  let normalized := gsub skillSepToks (sl ",") body
  let normalized := gsub labelToks [] normalized
  let parts := (splitOnCh ',' normalized).map pyStrip
  let skills := parts.foldl (fun acc p =>
    let p := pyStripChars (sl " -–:•·") p
    if 1 < p.length && p.length < 50
        && !BAD_STARTS.any (fun b => startsWith b (pyLower p))
        && (splitWS p).length ≤ 5 then
      acc ++ [p]
    else acc) []
  pyDedup skills

/-- The known-skill catalog of `_fallback_skills`. -/
def KNOWN_SKILLS : List (List Char) :=
  [sl "Python", sl "JavaScript", sl "TypeScript", sl "Java", sl "C++",
   sl "C#", sl "Go", sl "React", sl "Angular", sl "Vue", sl "Next.js",
   sl "Node.js", sl "Express", sl "Flutter", sl "Dart", sl "Android",
   sl "iOS", sl "Swift", sl "Kotlin", sl "Django", sl "Flask", sl "FastAPI",
   sl "Spring Boot", sl "SQL", sl "PostgreSQL", sl "MySQL", sl "MongoDB",
   sl "Redis", sl "Firebase", sl "AWS", sl "GCP", sl "Azure", sl "Docker",
   sl "Kubernetes", sl "Linux", sl "Git", sl "TensorFlow", sl "PyTorch",
   sl "Scikit-learn", sl "Pandas", sl "NumPy", sl "Machine Learning",
   sl "Deep Learning", sl "NLP", sl "LLM", sl "Generative AI",
   sl "LangChain", sl "Hugging Face", sl "RAG", sl "REST API", sl "GraphQL",
   sl "Microservices", sl "CI/CD", sl "Agile", sl "HTML", sl "CSS",
   sl "Tailwind", sl "Bootstrap"]

/-- `ResumeParser._fallback_skills`. -/
def fallback_skills (text : List Char) : List (List Char) :=
  let tl := pyLower text
  KNOWN_SKILLS.filter (fun k => containsSub (pyLower k) tl)

/-- First location pattern of `_extract_from_text`:
`\b([A-Z][a-z]+(?:\s[A-Z][a-z]+)?,\s*(?:India|Maharashtra|[A-Z]{2}))\b`. -/
def locToks1 : List RTok :=
  [.wb, .one isUpperCh, .plusCls isLowerCh,
   .grp [[.one isSpaceCh, .one isUpperCh, .plusCls isLowerCh], []],
   .lits (sl ",") false, .starCls isSpaceCh,
   .grp [[.lits (sl "India") false], [.lits (sl "Maharashtra") false],
     [.one isUpperCh, .one isUpperCh]],
   .wb]

/-- Second location pattern of `_extract_from_text` (known city names). -/
def locToks2 : List RTok :=
  [.wb, .grp [[.lits (sl "Bhayadar") false], [.lits (sl "Mumbai") false],
    [.lits (sl "Delhi") false], [.lits (sl "Vasai") false],
    [.lits (sl "Thane") false], [.lits (sl "Pune") false],
    [.lits (sl "Bangalore") false], [.lits (sl "Bengaluru") false],
    [.lits (sl "Hyderabad") false]], .wb]

/-- The section-to-field assignment chain of `_extract_from_text`. -/
def sectionAssign (data : ResRec) (sec_type body : List Char) : ResRec :=
  if sec_type = sl "summary" then {data with summary := body}
  else if sec_type = sl "experience" then {data with experience_text := body}
  else if sec_type = sl "education" then {data with education_text := body}
  else if sec_type = sl "projects" then {data with projects_text := body}
  else if sec_type = sl "skills" then {data with skills := parse_skills body}
  else if sec_type = sl "certifications" then
    {data with certifications :=
      (splitOnCh '\n' body).filter (fun l => pyStrip l ≠ [])}
  else data

/-- The tail of `_extract_from_text` after the email/phone steps (split out
for proof modularity; the statement order of the source is preserved):
linkedin, github, location, name, section mapping, skills fallback. -/
def extract_tail (text : List Char) (d2 : ResRec) : ResRec :=
  let lines := ((splitOnCh '\n' text).map pyStrip).filter (fun l => l ≠ [])
  let d3 := match reSearch linkedinToks text with
    | some m => {d2 with linkedin := m}
    | none => d2
  let d4 := match reSearch githubToks text with
    | some m => {d3 with github := m, website := m}
    | none => d3
  let d5 := match reSearch locToks1 text with
    | some m => {d4 with location := m}
    | none =>
      match reSearch locToks2 text with
      | some m => {d4 with location := m}
      | none => d4
  let d6 := {d5 with name := extract_name_from_lines lines}
  let sections := split_sections_text lines
  let d7 : ResRec := section_keywords.foldl (fun dacc tk =>
    sections.foldl (fun dacc2 sc =>
      if tk.2.any (fun kw => containsSub kw (pyLower sc.1)) then
        sectionAssign dacc2 tk.1 (pyStrip (joinSep (sl "\n") sc.2))
      else dacc2) dacc) d6
  if d7.skills = [] then {d7 with skills := fallback_skills text} else d7

/-- `ResumeParser._extract_from_text`. -/
def extract_from_text (text : List Char) : ResRec :=
  let data : ResRec := {}
  let d1 := match reSearch emailToks text with
    | some m => {data with email := m}
    | none => data
  let d2 := match reSearch phoneToks text with
    | some m =>
      let digits := truncDigits m
      if digits.length ≥ 10 then {d1 with phone := digits} else d1
    | none => d1
  extract_tail text d2

/-! ### PDF entry point

The PDF text-extraction libraries are external collaborators, modelled as
an environment: `pdfplumberOk` is whether `import pdfplumber` succeeds;
each extractor returns the extracted text or the message of the exception
it raises.  In `_extract_pdf_text` the first `try` block catches only
`ImportError`, so when pdfplumber is importable an extraction error
propagates to the caller (modelled by returning `Except.error`); only the
PyPDF2 block converts its errors into the diagnostic string. -/

structure PdfEnv where
  pdfplumberOk : Bool
  pdfplumberExtract : List ℕ → Except (List Char) (List Char)
  pypdf2Extract : List ℕ → Except (List Char) (List Char)

/-- `ResumeParser._extract_pdf_text`. -/
def extract_pdf_text (env : PdfEnv) (file_bytes : List ℕ) :
    Except (List Char) (List Char) :=
  if env.pdfplumberOk then env.pdfplumberExtract file_bytes
  else match env.pypdf2Extract file_bytes with
    | .ok t => .ok t
    | .error e => .ok (sl "(PDF parse error: " ++ e ++ sl ")")

/-- `ResumeParser.parse_pdf`. -/
def parse_pdf (env : PdfEnv) (file_bytes : List ℕ) :
    Except (List Char) (ResRec × List Char) :=
  match extract_pdf_text env file_bytes with
  | .ok text => .ok (extract_from_text text, text)
  | .error e => .error e

/-! ### Heap model of `_rule_enhance`

To settle the frame claim — the enhancement never mutates the input record
in place — `_rule_enhance` is modelled operationally over an explicit heap
of Python objects.  An address is an index into the store; `dict(data)`
shallow-copies a field table into a fresh cell; every assignment
`enhanced[k] = v` writes to the freshly allocated record, never to the
input. -/

/-- A Python heap value: string, list (of references), or dict. -/
inductive PyVal where
  | vstr (s : List Char)
  | vlist (elems : List ℕ)
  | vdict (fields : List (List Char × ℕ))
deriving DecidableEq

/-- The heap: cell `a` is `store.get? a`. -/
abbrev Store := List PyVal

/-- Allocate a fresh cell; its address is the old length. -/
def alloc (s : Store) (v : PyVal) : ℕ × Store := (s.length, s ++ [v])

/-- Overwrite the cell at `a`. -/
def setVal (s : Store) (a : ℕ) (v : PyVal) : Store := s.set a v

/-- Read a cell (a dangling address reads as the empty string). -/
def getVal (s : Store) (a : ℕ) : PyVal := s.getD a (.vstr [])

/-- The field table of the dict at `a`. -/
def dictFieldsOf (s : Store) (a : ℕ) : List (List Char × ℕ) :=
  match getVal s a with
  | .vdict fs => fs
  | _ => []

/-- `d.get(k)` as an address. -/
def dictGetA (s : Store) (a : ℕ) (k : List Char) : Option ℕ :=
  match (dictFieldsOf s a).find? (fun kv => kv.1 = k) with
  | some kv => some kv.2
  | none => none

/-- `d[k] = v` for the dict at `a` (the value already allocated at `va`). -/
def setFieldA (s : Store) (a : ℕ) (k : List Char) (va : ℕ) : Store :=
  setVal s a (.vdict (dictSet (dictFieldsOf s a) k va))

/-- Read `d.get(k, '')` as a string value. -/
def readStrF (s : Store) (a : ℕ) (k : List Char) : List Char :=
  match dictGetA s a k with
  | some b =>
    match getVal s b with
    | .vstr t => t
    | _ => []
  | none => []

/-- Read `d.get(k, [])` as a list of strings. -/
def readStrListF (s : Store) (a : ℕ) (k : List Char) : List (List Char) :=
  match dictGetA s a k with
  | some b =>
    match getVal s b with
    | .vlist es => es.map (fun e =>
        match getVal s e with
        | .vstr t => t
        | _ => [])
    | _ => []
  | none => []

/-- Read `d.get(k, [])` as a list of element addresses. -/
def readAddrListF (s : Store) (a : ℕ) (k : List Char) : List ℕ :=
  match dictGetA s a k with
  | some b =>
    match getVal s b with
    | .vlist es => es
    | _ => []
  | none => []

/-- Read a responsibilities value (string or list of strings). -/
def readRespF (s : Store) (a : ℕ) (k : List Char) : RespV :=
  match dictGetA s a k with
  | some b =>
    match getVal s b with
    | .vstr t => .rstr t
    | .vlist es => .rlist (es.map (fun e =>
        match getVal s e with
        | .vstr t => t
        | _ => []))
    | _ => .rlist []
  | none => .rlist []

/-- Read an experience-entry dict at `a` as a value. -/
def readEntryAt (s : Store) (a : ℕ) : ExpEntry :=
  { title := readStrF s a (sl "title")
    company := readStrF s a (sl "company")
    duration := readStrF s a (sl "duration")
    elocation := readStrF s a (sl "location")
    responsibilities := readRespF s a (sl "responsibilities") }

/-- Read a project-entry dict at `a` as a value. -/
def readProjAt (s : Store) (a : ℕ) : ProjEntry :=
  { pname := readStrF s a (sl "name")
    tech := readStrF s a (sl "tech")
    plink := readStrF s a (sl "link")
    pduration := readStrF s a (sl "duration")
    description := readStrF s a (sl "description") }

/-- Deep-read the record dict at `a` as a `ResRec` value. -/
def readRecAt (s : Store) (a : ℕ) : ResRec :=
  { name := readStrF s a (sl "name")
    email := readStrF s a (sl "email")
    phone := readStrF s a (sl "phone")
    linkedin := readStrF s a (sl "linkedin")
    github := readStrF s a (sl "github")
    website := readStrF s a (sl "website")
    location := readStrF s a (sl "location")
    summary := readStrF s a (sl "summary")
    skills := readStrListF s a (sl "skills")
    certifications := readStrListF s a (sl "certifications")
    languages := readStrF s a (sl "languages")
    education_text := readStrF s a (sl "education_text")
    experience_text := readStrF s a (sl "experience_text")
    projects_text := readStrF s a (sl "projects_text")
    education_entries := []
    experience_entries := (readAddrListF s a (sl "experience_entries")).map
      (readEntryAt s)
    project_entries := (readAddrListF s a (sl "project_entries")).map
      (readProjAt s)
    full_text := readStrF s a (sl "full_text") }

/-- Allocate a string and assign it to a field of the dict at `da`. -/
def writeNewStr (s : Store) (da : ℕ) (k : List Char) (v : List Char) : Store :=
  let p := alloc s (.vstr v)
  setFieldA p.2 da k p.1

/-- Allocate each string of a list. -/
def allocStrs (s : Store) : List (List Char) → List ℕ × Store
  | [] => ([], s)
  | x :: xs =>
    let p := alloc s (.vstr x)
    let q := allocStrs p.2 xs
    (p.1 :: q.1, q.2)

/-- Allocate a fresh list of fresh strings and assign it to a field. -/
def writeNewStrList (s : Store) (da : ℕ) (k : List Char)
    (xs : List (List Char)) : Store :=
  let p := allocStrs s xs
  let q := alloc p.2 (.vlist p.1)
  setFieldA q.2 da k q.1

/-- One iteration of the `experience_entries` loop of `_rule_enhance`:
`e = dict(exp)`, then rewrite the responsibilities into a fresh list on the
copy.  Returns the copy's address. -/
def copyEntryOp (s : Store) (entryA : ℕ) : ℕ × Store :=
  let p := alloc s (.vdict (dictFieldsOf s entryA))
  let resp := readRespF s entryA (sl "responsibilities")
  if resp.truthy then
    let resp_text := match resp with
      | .rlist l => joinSep (sl "\n") l
      | .rstr t => t
    let rewritten := splitOnCh '\n' (rewrite_bullets resp_text)
    (p.1, writeNewStrList p.2 p.1 (sl "responsibilities") rewritten)
  else (p.1, p.2)

/-- The `experience_entries` loop of `_rule_enhance` over the heap. -/
def entriesLoopOp (s : Store) : List ℕ → List ℕ × Store
  | [] => ([], s)
  | a :: as =>
    let p := copyEntryOp s a
    let q := entriesLoopOp p.2 as
    (p.1 :: q.1, q.2)

/-- `AIEnhancer._rule_enhance` over the heap: `enhanced = dict(data)`
(shallow copy), then each assignment writes a freshly allocated value into
the fresh record; the input dict at `da` is only read. -/
def rule_enhance_op (s0 : Store) (da : ℕ) (target_role jd : List Char) :
    ℕ × Store :=
  let p := alloc s0 (.vdict (dictFieldsOf s0 da))
  let ea := p.1
  let s1 := p.2
  let summary0 := readStrF s0 da (sl "summary")
  let skills0 := readStrListF s0 da (sl "skills")
  let exp0 := readStrF s0 da (sl "experience_text")
  let s2 := writeNewStr s1 ea (sl "summary")
    (rewrite_summary summary0 skills0 exp0 target_role)
  let s3 := if exp0 ≠ [] then
      writeNewStr s2 ea (sl "experience_text") (rewrite_bullets exp0)
    else s2
  let entryAs := readAddrListF s0 da (sl "experience_entries")
  let s6 :=
    if entryAs ≠ [] then
      let q := entriesLoopOp s3 entryAs
      let r := alloc q.2 (.vlist q.1)
      let s4 := setFieldA r.2 ea (sl "experience_entries") r.1
      let newEntries := q.1.map (readEntryAt s4)
      let parts := newEntries.map (fun ex =>
        let header := ex.title ++ sl " | " ++ ex.company ++ sl " ("
          ++ ex.duration ++ sl ")"
        let lines := match ex.responsibilities with
          | .rlist l => (l.filter (fun r => pyStrip r ≠ [])).map
              (fun r => sl "• " ++ pyLStrip (sl "• ") r)
          | .rstr t => [t]
        header ++ sl "\n" ++ joinSep (sl "\n") lines)
      if parts ≠ [] then
        writeNewStr s4 ea (sl "experience_text") (joinSep (sl "\n\n") parts)
      else s4
    else s3
  let proj0 := readStrF s0 da (sl "projects_text")
  let s7 := if proj0 ≠ [] then
      writeNewStr s6 ea (sl "projects_text") (rewrite_bullets proj0)
    else s6
  let s8 := writeNewStrList s7 ea (sl "skills")
    (expand_skills skills0 target_role jd)
  let s9 := writeNewStr s8 ea (sl "full_text") (build_full_text (readRecAt s8 ea))
  (ea, s9)

/-- The frame property: the new store keeps every pre-existing cell intact. -/
def StoreExtends (s0 s1 : Store) : Prop :=
  s0.length ≤ s1.length ∧ ∀ a, a < s0.length → s1.get? a = s0.get? a

/-- A concrete skills list with 26 distinct entries and no role-bucket hit. -/
def skills26 : List (List Char) :=
  [sl "a1", sl "a2", sl "a3", sl "a4", sl "a5", sl "a6", sl "a7", sl "a8",
   sl "a9", sl "a10", sl "a11", sl "a12", sl "a13", sl "a14", sl "a15",
   sl "a16", sl "a17", sl "a18", sl "a19", sl "a20", sl "a21", sl "a22",
   sl "a23", sl "a24", sl "a25", sl "a26"]

/-- `n` copies of the two-character word "z " (filler text for the scoring
counterexample). -/
def zWords (n : ℕ) : List Char := (List.replicate n (sl "z ")).flatten

/-- A 301-word filler enhanced text for the scoring counterexample. -/
def fillerEnh : List Char := zWords 301

/-- A 601-word filler original text for the scoring counterexample. -/
def fillerOrig : List Char := zWords 601

/-! ## Theorems -/

/-! ### Lemmas about `pyDedup` -/

theorem mem_pyDedupAcc [DecidableEq α] (a : α) :
    ∀ (l seen : List α), a ∈ pyDedupAcc seen l ↔ a ∈ l ∧ a ∉ seen := by
  intro l
  induction l with
  | nil => intro seen; simp [pyDedupAcc]
  | cons b bs ih =>
    intro seen
    by_cases hb : b ∈ seen
    · simp only [pyDedupAcc, if_pos hb, ih, List.mem_cons]
      constructor
      · exact fun h => ⟨Or.inr h.1, h.2⟩
      · rintro ⟨hab | h, hs⟩
        · exact absurd (hab ▸ hb) hs
        · exact ⟨h, hs⟩
    · simp only [pyDedupAcc, if_neg hb, List.mem_cons, ih]
      by_cases hab : a = b
      · subst hab; simp [hb]
      · simp [hab]

/-- Membership in `pyDedup` is membership in the original list. -/
theorem mem_pyDedup [DecidableEq α] (a : α) (l : List α) :
    a ∈ pyDedup l ↔ a ∈ l := by
  unfold pyDedup
  rw [mem_pyDedupAcc]
  simp

theorem pyDedupAcc_nodup [DecidableEq α] :
    ∀ (l seen : List α), (pyDedupAcc seen l).Nodup
      ∧ ∀ a ∈ pyDedupAcc seen l, a ∉ seen := by
  intro l
  induction l with
  | nil => intro seen; simp [pyDedupAcc]
  | cons b bs ih =>
    intro seen
    by_cases hb : b ∈ seen
    · simpa [pyDedupAcc, if_pos hb] using ih seen
    · obtain ⟨hnd, hdisj⟩ := ih (b :: seen)
      refine ⟨?_, ?_⟩
      · simp only [pyDedupAcc, if_neg hb]
        refine List.Nodup.cons ?_ hnd
        intro hmem
        exact hdisj b hmem (List.mem_cons_self b seen)
      · intro a hmem
        simp only [pyDedupAcc, if_neg hb, List.mem_cons] at hmem
        rcases hmem with rfl | hmem
        · exact hb
        · exact fun hs => hdisj a hmem (List.mem_cons_of_mem _ hs)

/-- `pyDedup` never repeats an entry. -/
theorem pyDedup_nodup [DecidableEq α] (l : List α) : (pyDedup l).Nodup :=
  (pyDedupAcc_nodup l []).1

theorem pyDedupAcc_append [DecidableEq α] (xs : List α) :
    ∀ (seen ys : List α),
      ∃ zs, pyDedupAcc seen (xs ++ ys) = pyDedupAcc seen xs ++ zs := by
  induction xs with
  | nil => intro seen ys; exact ⟨pyDedupAcc seen ys, by simp [pyDedupAcc]⟩
  | cons b bs ih =>
    intro seen ys
    by_cases hb : b ∈ seen
    · obtain ⟨zs, hzs⟩ := ih seen ys
      exact ⟨zs, by simp [pyDedupAcc, if_pos hb, hzs]⟩
    · obtain ⟨zs, hzs⟩ := ih (b :: seen) ys
      exact ⟨zs, by simp [pyDedupAcc, if_neg hb, hzs]⟩

/-- `pyDedup` of an appended list starts with `pyDedup` of the first part. -/
theorem pyDedup_append [DecidableEq α] (xs ys : List α) :
    ∃ zs, pyDedup (xs ++ ys) = pyDedup xs ++ zs :=
  pyDedupAcc_append xs [] ys

/-- **C4, counterexample.**  With 26 distinct input skills (and no
role-bucket match), `expand_skills` truncates the deduplicated merge to 25
entries and drops the 26th original skill, so the output does not contain
every original skill. -/
theorem c4_counterexample :
    sl "a26" ∈ skills26 ∧ sl "a26" ∉ expand_skills skills26 [] [] := by
  constructor
  · decide
  · decide

/-- Originals of at most 25 distinct values survive dedup-then-take-25 of
any right extension. -/
theorem mem_take25_pyDedup_append {skills tail : List (List Char)}
    (hd : (pyDedup skills).length ≤ 25) {s : List Char} (hs : s ∈ skills) :
    s ∈ (pyDedup (skills ++ tail)).take 25 := by
  obtain ⟨zs, hzs⟩ := pyDedup_append skills tail
  rw [hzs, List.take_append_eq_append_take, List.take_of_length_le hd]
  exact List.mem_append_left _ ((mem_pyDedup s skills).mpr hs)

/-- **C4, amended.**  For every resume record with a non-empty skills list
of at most 25 distinct entries, and any target role and job description,
`expand_skills` returns a list of length at most 25 that contains every
skill of the original list.  (The counterexample shows the 25-distinct
bound is necessary.) -/
theorem c4_amended (skills : List (List Char)) (role jd : List Char)
    (_hne : skills ≠ []) (hd : (pyDedup skills).length ≤ 25) :
    (expand_skills skills role jd).length ≤ 25
    ∧ ∀ s ∈ skills, s ∈ expand_skills skills role jd := by
  constructor
  · exact List.length_take_le _ _
  · intro s hs
    exact mem_take25_pyDedup_append hd hs

/-- **C4, witness.** -/
theorem c4_witness :
    ([sl "Python"] : List (List Char)) ≠ []
    ∧ (pyDedup [sl "Python"]).length ≤ 25
    ∧ (expand_skills [sl "Python"] (sl "ML Engineer") []).length ≤ 25
    ∧ ∀ s ∈ [sl "Python"], s ∈ expand_skills [sl "Python"] (sl "ML Engineer") [] :=
  ⟨by decide, by decide,
    (c4_amended [sl "Python"] (sl "ML Engineer") [] (by decide) (by decide)).1,
    (c4_amended [sl "Python"] (sl "ML Engineer") [] (by decide) (by decide)).2⟩

/-- **C5, counterexample.**  The skill-list normalizer deduplicates with
`dict.fromkeys` (case-sensitive), so "Java, java" parses to two entries
that are equal case-insensitively — the claimed case-insensitive
uniqueness fails. -/
theorem c5_counterexample :
    parse_skills (sl "Java, java") = [sl "Java", sl "java"]
    ∧ pyLower (sl "Java") = pyLower (sl "java") := by
  constructor
  · decide
  · decide

/-! ### Lemmas for the phone invariant (C10) -/

/-- Whenever the shared normalisation block keeps at least 10 digits, it
keeps exactly 10 and only digits. -/
theorem truncDigits_spec (m : List Char) (h : 10 ≤ (truncDigits m).length) :
    (truncDigits m).length = 10
    ∧ ∀ c ∈ truncDigits m, isDigitCh c = true := by
  unfold truncDigits at *
  by_cases hgt : (m.filter (fun c => isDigitCh c)).length > 10
  · rw [if_pos hgt] at *
    refine ⟨by rw [List.length_drop]; omega, ?_⟩
    intro c hc
    exact List.of_mem_filter (List.mem_of_mem_drop hc)
  · rw [if_neg hgt] at *
    exact ⟨by omega, fun c hc => List.of_mem_filter hc⟩

theorem phone_ite_loc (c : Prop) [Decidable c] (d : ResRec) (l : List Char) :
    (if c then {d with location := l} else d).phone = d.phone := by
  split <;> rfl

theorem phone_ite_skills (c : Prop) [Decidable c] (d : ResRec)
    (sk : List (List Char)) :
    (if c then {d with skills := sk} else d).phone = d.phone := by
  split <;> rfl

theorem sectionAssign_phone (d : ResRec) (t b : List Char) :
    (sectionAssign d t b).phone = d.phone := by
  unfold sectionAssign
  split_ifs <;> rfl

theorem foldl_phone_eq {β : Type} (step : ResRec → β → ResRec)
    (h : ∀ d b, (step d b).phone = d.phone) :
    ∀ (l : List β) (d : ResRec), (l.foldl step d).phone = d.phone := by
  intro l
  induction l with
  | nil => intro d; rfl
  | cons x xs ih => intro d; rw [List.foldl_cons, ih, h]

/-- The phone field written by `_parse_contact_line`. -/
theorem parse_contact_line_phone (line : List Char) (data : ResRec) :
    (parse_contact_line line data).phone = data.phone
    ∨ ((parse_contact_line line data).phone.length = 10
       ∧ ∀ c ∈ (parse_contact_line line data).phone, isDigitCh c = true) := by
  unfold parse_contact_line
  rcases h1 : reSearch emailToks line with _ | m1 <;>
    rcases h2 : reSearch phoneToks line with _ | m2 <;>
    rcases h3 : reSearch linkedinToks line with _ | m3 <;>
    rcases h4 : reSearch githubToks line with _ | m4 <;>
    simp only [h1, h2, h3, h4] <;>
    first
      | (left; split <;> rfl)
      | (by_cases hd : (truncDigits m2).length ≥ 10
         · rw [if_pos hd]
           right
           split <;> exact truncDigits_spec m2 hd
         · rw [if_neg hd]
           left
           split <;> rfl)

/-- The whole tail of `_extract_from_text` never touches the phone field. -/
theorem extract_tail_phone (text : List Char) (d : ResRec) :
    (extract_tail text d).phone = d.phone := by
  unfold extract_tail
  rcases h3 : reSearch linkedinToks text with _ | m3 <;>
    rcases h4 : reSearch githubToks text with _ | m4 <;>
    rcases h5 : reSearch locToks1 text with _ | m5 <;>
    simp only [h3, h4, h5] <;>
    first
      | (split <;>
         exact Eq.trans (foldl_phone_eq _ (fun d' b => foldl_phone_eq _
           (fun d'' sc => by
             split
             · exact sectionAssign_phone _ _ _
             · rfl) _ _) _ _) rfl)
      | (rcases h6 : reSearch locToks2 text with _ | m6 <;>
         simp only [h6] <;>
         · split <;>
           exact Eq.trans (foldl_phone_eq _ (fun d' b => foldl_phone_eq _
             (fun d'' sc => by
               split
               · exact sectionAssign_phone _ _ _
               · rfl) _ _) _ _) rfl)

/-- The phone field written by `_extract_from_text`. -/
theorem extract_from_text_phone (text : List Char) :
    (extract_from_text text).phone = []
    ∨ ((extract_from_text text).phone.length = 10
       ∧ ∀ c ∈ (extract_from_text text).phone, isDigitCh c = true) := by
  unfold extract_from_text
  rcases h1 : reSearch emailToks text with _ | m1 <;>
    rcases h2 : reSearch phoneToks text with _ | m2 <;>
    simp only [h1, h2, extract_tail_phone] <;>
    first
      | trivial
      | (left; rfl)
      | (by_cases hd : (truncDigits m2).length ≥ 10
         · rw [if_pos hd]
           right
           exact truncDigits_spec m2 hd
         · rw [if_neg hd]
           left
           rfl)

/-- **C10.**  Whenever contact extraction (the contact-line parser or the
plain-text extractor) sets the phone field to a non-empty value, that value
consists of exactly 10 digit characters. -/
theorem c10_phone_ten_digits :
    (∀ (line : List Char) (data : ResRec),
      (parse_contact_line line data).phone ≠ data.phone →
      (parse_contact_line line data).phone.length = 10
      ∧ ∀ c ∈ (parse_contact_line line data).phone, isDigitCh c = true)
    ∧ (∀ text : List Char,
      (extract_from_text text).phone ≠ [] →
      (extract_from_text text).phone.length = 10
      ∧ ∀ c ∈ (extract_from_text text).phone, isDigitCh c = true) := by
  constructor
  · intro line data h
    rcases parse_contact_line_phone line data with heq | hspec
    · exact absurd heq h
    · exact hspec
  · intro text h
    rcases extract_from_text_phone text with heq | hspec
    · exact absurd heq h
    · exact hspec

/-- **C10, witness.** -/
theorem c10_witness :
    (parse_contact_line (sl "+1 (415) 555-2671") {}).phone ≠ ({} : ResRec).phone
    ∧ (parse_contact_line (sl "+1 (415) 555-2671") {}).phone.length = 10
    ∧ (extract_from_text (sl "+1 (415) 555-2671")).phone ≠ []
    ∧ (extract_from_text (sl "+1 (415) 555-2671")).phone.length = 10 :=
  ⟨by decide, (c10_phone_ten_digits.1 _ {} (by decide)).1, by decide,
   (c10_phone_ten_digits.2 _ (by decide)).1⟩

/-- **C5, amended.**  Every skills list produced by the system (the
skill-list normalizer, its known-catalog fallback, and skill expansion)
contains no two entries that are **exactly** equal (case-sensitive
uniqueness), and skill expansion never returns more than 25 entries.
(Case-insensitive uniqueness fails — see the counterexample.) -/
theorem c5_amended :
    (∀ body, (parse_skills body).Nodup)
    ∧ (∀ text, (fallback_skills text).Nodup)
    ∧ (∀ skills role jd, (expand_skills skills role jd).Nodup
        ∧ (expand_skills skills role jd).length ≤ 25) := by
  refine ⟨fun body => ?_, fun text => ?_, fun skills role jd => ⟨?_, ?_⟩⟩
  · exact pyDedup_nodup _
  · exact List.Nodup.filter _ (by decide)
  · exact List.Nodup.sublist (List.take_sublist _ _) (pyDedup_nodup _)
  · exact List.length_take_le _ _

/-- **C1, counterexample.**  A single application of the deterministic
bullet rewriter to the crowded line does **not** return
"Designed and developed an app": the rule table is first-match-wins, and the
leading "As a … at …, I " rule fires first, leaving the "Contributed to …"
phrasing in place. -/
theorem c1_counterexample :
    ¬ (rewrite_bullets
        (sl "As a Developer at Acme, I contributed to the design and development of an app")
      = sl "Designed and developed an app") := by
  decide

/-- **C1, amended.**  One application of the bullet rewriter to the line
yields "Contributed to the design and development of an app" (only the
first matching rule is applied); a second application then yields
"Designed and developed an app". -/
theorem c1_amended :
    rewrite_bullets
        (sl "As a Developer at Acme, I contributed to the design and development of an app")
      = sl "Contributed to the design and development of an app"
    ∧ rewrite_bullets
        (rewrite_bullets
          (sl "As a Developer at Acme, I contributed to the design and development of an app"))
      = sl "Designed and developed an app" := by
  constructor
  · decide
  · decide

/-! ### Lemmas about `pyRound` -/

theorem pyRound_cases (q : ℚ) : pyRound q = ⌊q⌋ ∨ pyRound q = ⌊q⌋ + 1 := by
  simp only [pyRound]
  split_ifs <;> simp

theorem le_pyRound (q : ℚ) : ⌊q⌋ ≤ pyRound q := by
  rcases pyRound_cases q with h | h <;> omega

theorem pyRound_le (q : ℚ) : pyRound q ≤ ⌊q⌋ + 1 := by
  rcases pyRound_cases q with h | h <;> omega

theorem pyRound_eq_floor_of_lt {q : ℚ} (h : q - ⌊q⌋ < 1/2) :
    pyRound q = ⌊q⌋ := by
  simp only [pyRound]
  rw [if_pos h]

theorem pyRound_eq_add_one_of_gt {q : ℚ} (h : 1/2 < q - ⌊q⌋) :
    pyRound q = ⌊q⌋ + 1 := by
  simp only [pyRound]
  rw [if_neg (not_lt.mpr (le_of_lt h)), if_pos h]

/-- Banker's rounding is monotone. -/
theorem pyRound_mono {a b : ℚ} (h : a ≤ b) : pyRound a ≤ pyRound b := by
  rcases lt_or_le ⌊a⌋ ⌊b⌋ with hf | hf
  · calc pyRound a ≤ ⌊a⌋ + 1 := pyRound_le _
      _ ≤ ⌊b⌋ := by omega
      _ ≤ pyRound b := le_pyRound _
  · have hfe : ⌊a⌋ = ⌊b⌋ := le_antisymm (Int.floor_mono h) hf
    by_cases h1 : a - ⌊a⌋ < 1/2
    · rw [pyRound_eq_floor_of_lt h1, hfe]
      exact le_pyRound b
    · by_cases h2 : 1/2 < b - ⌊b⌋
      · rw [pyRound_eq_add_one_of_gt h2, ← hfe]
        exact pyRound_le a
      · have h1' : 1/2 ≤ a - (⌊a⌋ : ℚ) := not_lt.mp h1
        have h2' : b - (⌊b⌋ : ℚ) ≤ 1/2 := not_lt.mp h2
        have hab : a = b := by
          have hc : ((⌊a⌋ : ℚ)) = ((⌊b⌋ : ℚ)) := by exact_mod_cast hfe
          linarith
        rw [hab]

theorem pyRound_nonneg {q : ℚ} (h : 0 ≤ q) : 0 ≤ pyRound q :=
  le_trans (Int.floor_nonneg.mpr h) (le_pyRound q)

theorem pyRound_le_of_le {q : ℚ} {n : ℤ} (h : q ≤ (n : ℚ)) : pyRound q ≤ n := by
  have hf : ⌊q⌋ ≤ n := by
    have := Int.floor_mono h
    simpa using this
  have hfq : (⌊q⌋ : ℚ) ≤ q := Int.floor_le q
  simp only [pyRound]
  split_ifs with h1 h2 h3
  · exact hf
  · have hlt : (⌊q⌋ : ℚ) < (n : ℚ) := by linarith
    have : ⌊q⌋ < n := by exact_mod_cast hlt
    omega
  · exact hf
  · have h1' : 1/2 ≤ q - (⌊q⌋ : ℚ) := not_lt.mp h1
    have hlt : (⌊q⌋ : ℚ) < (n : ℚ) := by linarith
    have : ⌊q⌋ < n := by exact_mod_cast hlt
    omega

theorem pyRound_bounds {q : ℚ} (h0 : 0 ≤ q) (h100 : q ≤ 100) :
    0 ≤ pyRound q ∧ pyRound q ≤ 100 :=
  ⟨pyRound_nonneg h0, pyRound_le_of_le (by exact_mod_cast h100)⟩

/-! ### Bounds of the sub-scores (C3) -/

theorem foldl_sec_nonneg (l : List (Bool × ℚ × List Char))
    (hl : ∀ c ∈ l, 0 ≤ c.2.1) :
    ∀ acc : ℚ, 0 ≤ acc →
      0 ≤ l.foldl (fun acc c => if c.1 then acc + c.2.1 else acc) acc := by
  induction l with
  | nil => intro acc h; exact h
  | cons c cs ih =>
    intro acc h
    rw [List.foldl_cons]
    refine ih (fun d hd => hl d (List.mem_cons_of_mem _ hd)) _ ?_
    split
    · exact add_nonneg h (hl c (List.mem_cons_self _ _))
    · exact h

theorem sections_score_bounds (data : ResRec) :
    0 ≤ (sections_score data).1 ∧ (sections_score data).1 ≤ 100 := by
  simp only [sections_score]
  constructor
  · refine le_min (by norm_num) ?_
    refine foldl_sec_nonneg _ ?_ 0 le_rfl
    intro c hc
    simp only [secChecks, List.mem_cons, List.not_mem_nil, or_false] at hc
    rcases hc with h | h | h | h | h | h | h <;> rw [h] <;> norm_num
  · exact min_le_left _ _

theorem keywords_score_bounds (text jd : List Char) :
    0 ≤ (keywords_score text jd).1 ∧ (keywords_score text jd).1 ≤ 100 := by
  simp only [keywords_score]
  constructor
  · refine le_min (by norm_num) ?_
    have h1 : (0 : ℚ) ≤ min 50
        ((((TECHNICAL_KEYWORDS.filter (fun k => containsSub k text)).length : ℚ))
          / ((TECHNICAL_KEYWORDS.length : ℚ)) * 100) :=
      le_min (by norm_num) (by positivity)
    have h2 : (0 : ℚ) ≤ min 20
        ((((SOFT_SKILLS.filter (fun k => containsSub k text)).length : ℚ))
          / ((SOFT_SKILLS.length : ℚ)) * 100) :=
      le_min (by norm_num) (by positivity)
    have h3 : (0 : ℚ) ≤ min 30
        ((((POWER_VERBS.filter (fun v => containsSub v text)).length : ℚ))
          / ((POWER_VERBS.length : ℚ)) * 100) :=
      le_min (by norm_num) (by positivity)
    linarith
  · exact min_le_left _ _

theorem content_score_bounds (text : List Char) (data : ResRec) :
    0 ≤ (content_score text data).1 ∧ (content_score text data).1 ≤ 100 := by
  simp only [content_score]
  constructor
  · refine le_min (by norm_num) ?_
    split_ifs <;> norm_num
  · exact min_le_left _ _

theorem format_score_bounds (data : ResRec) (full : List Char) :
    0 ≤ (format_score data full).1 ∧ (format_score data full).1 ≤ 100 := by
  simp only [format_score]
  exact ⟨le_min (by norm_num) (le_max_left _ _), min_le_left _ _⟩

theorem jd_match_bounds (text jd : List Char) :
    0 ≤ jd_match text jd ∧ jd_match text jd ≤ 1 := by
  simp only [jd_match]
  split_ifs with h
  · norm_num
  · constructor
    · positivity
    · rw [div_le_one]
      · exact_mod_cast List.countP_le_length _
      · exact_mod_cast List.length_pos.mpr h

/-- **C3.**  For every resume record, raw text, and (possibly empty) job
description, the built-in scorer returns overall, keyword, format, content,
and section scores that are integers in `[0, 100]`. -/
theorem c3_score_bounds (data : ResRec) (raw jd : List Char) :
    (0 ≤ (calculate data raw jd).overall_score
      ∧ (calculate data raw jd).overall_score ≤ 100)
    ∧ (0 ≤ (calculate data raw jd).keyword_score
      ∧ (calculate data raw jd).keyword_score ≤ 100)
    ∧ (0 ≤ (calculate data raw jd).format_score
      ∧ (calculate data raw jd).format_score ≤ 100)
    ∧ (0 ≤ (calculate data raw jd).content_score
      ∧ (calculate data raw jd).content_score ≤ 100)
    ∧ (0 ≤ (calculate data raw jd).section_score
      ∧ (calculate data raw jd).section_score ≤ 100) := by
  have hs := sections_score_bounds data
  have hk := keywords_score_bounds (pyLower (scFullText data raw)) jd
  have hc := content_score_bounds (pyLower (scFullText data raw)) data
  have hf := format_score_bounds data (scFullText data raw)
  have hm := jd_match_bounds (pyLower (scFullText data raw)) jd
  simp only [calculate]
  refine ⟨?_, pyRound_bounds hk.1 hk.2, pyRound_bounds hf.1 hf.2,
    pyRound_bounds hc.1 hc.2, pyRound_bounds hs.1 hs.2⟩
  split_ifs with hjd
  · refine pyRound_bounds (le_min (by norm_num) (by nlinarith [hs.1, hk.1, hc.1, hf.1, hm.1])) (min_le_left _ _)
  · exact pyRound_bounds (by nlinarith [hs.1, hk.1, hc.1, hf.1])
      (by nlinarith [hs.2, hk.2, hc.2, hf.2])

/-! ### The scoring counterexample and keyword monotonicity (C2) -/

theorem sections_empty : (sections_score {}).1 = 0 := by
  simp only [sections_score, secChecks]
  norm_num [hasStrField, pyStrip, List.foldl]

theorem scFullText_empty_rec (raw : List Char) : scFullText {} raw = raw := by
  simp [scFullText, joinSep, List.intersperse]

theorem keywords_zero (T : List Char)
    (h1 : (TECHNICAL_KEYWORDS.filter (fun k => containsSub k T)).length = 0)
    (h2 : (SOFT_SKILLS.filter (fun k => containsSub k T)).length = 0)
    (h3 : (POWER_VERBS.filter (fun v => containsSub v T)).length = 0) :
    (keywords_score T []).1 = 0 := by
  simp only [keywords_score, h1, h2, h3]
  norm_num

theorem content_five (T : List Char) (hq : quantCount T = 0)
    (hvc : POWER_VERBS.countP (fun v => containsSub v T) = 0) :
    (content_score T {}).1 = 5 := by
  simp only [content_score, hq, hvc]
  norm_num

theorem format_forty_five (full : List Char)
    (hwc : (splitWS full).length = 301) : (format_score {} full).1 = 45 := by
  simp only [format_score, hwc]
  norm_num [List.cons_ne_nil]

theorem format_thirty (full : List Char)
    (hwc : (splitWS full).length = 902) : (format_score {} full).1 = 30 := by
  simp only [format_score, hwc]
  norm_num [List.cons_ne_nil]

theorem zWords_succ (n : ℕ) : zWords (n + 1) = 'z' :: ' ' :: zWords n := rfl

theorem zWords_append (m n : ℕ) : zWords m ++ zWords n = zWords (m + n) := by
  unfold zWords
  rw [List.replicate_add, List.flatten_append]

theorem mem_zWords {c : Char} : ∀ {n : ℕ}, c ∈ zWords n → c = 'z' ∨ c = ' ' := by
  intro n
  induction n with
  | zero => intro h; simp [zWords] at h
  | succ k ih =>
    rw [zWords_succ]
    intro h
    simp only [List.mem_cons] at h
    rcases h with rfl | rfl | h
    · exact Or.inl rfl
    · exact Or.inr rfl
    · exact ih h

theorem mem_pyLower_zWords {c : Char} {n : ℕ} (h : c ∈ pyLower (zWords n)) :
    c = 'z' ∨ c = ' ' := by
  rcases List.mem_map.mp h with ⟨d, hd, rfl⟩
  rcases mem_zWords hd with rfl | rfl
  · exact Or.inl (by decide)
  · exact Or.inr (by decide)

theorem isPrefixOf_mem : ∀ (k T : List Char),
    List.isPrefixOf k T = true → ∀ c ∈ k, c ∈ T := by
  intro k
  induction k with
  | nil => intro T h c hc; simp at hc
  | cons a as ih =>
    intro T h c hc
    cases T with
    | nil => simp [List.isPrefixOf] at h
    | cons b bs =>
      simp only [List.isPrefixOf, Bool.and_eq_true, beq_iff_eq] at h
      rcases List.mem_cons.mp hc with rfl | hc2
      · rw [h.1]; exact List.mem_cons_self _ _
      · exact List.mem_cons_of_mem _ (ih bs h.2 c hc2)

/-- A successful substring test only involves characters of the haystack. -/
theorem containsSub_subset : ∀ (k T : List Char),
    containsSub k T = true → ∀ c ∈ k, c ∈ T := by
  intro k T
  induction T with
  | nil =>
    intro h c hc
    simp only [containsSub, List.isEmpty_iff] at h
    subst h; simp at hc
  | cons t ts ih =>
    intro h c hc
    simp only [containsSub, Bool.or_eq_true] at h
    rcases h with hp | hsub
    · exact isPrefixOf_mem k (t :: ts) hp c hc
    · exact List.mem_cons_of_mem _ (ih hsub c hc)

theorem filter_contains_zero (cat : List (List Char)) (T : List Char)
    (hT : ∀ c ∈ T, c = 'z' ∨ c = ' ')
    (hcat : ∀ k ∈ cat, (k.any (fun c => !(c = 'z' || c = ' '))) = true) :
    (cat.filter (fun k => containsSub k T)).length = 0 := by
  rw [List.length_eq_zero, List.filter_eq_nil]
  intro k hk hcs
  obtain ⟨c, hck, hcz⟩ := List.any_eq_true.mp (hcat k hk)
  have hmem := containsSub_subset k T hcs c hck
  rcases hT c hmem with rfl | rfl <;> simp at hcz

theorem countP_contains_zero (cat : List (List Char)) (T : List Char)
    (hT : ∀ c ∈ T, c = 'z' ∨ c = ' ')
    (hcat : ∀ k ∈ cat, (k.any (fun c => !(c = 'z' || c = ' '))) = true) :
    cat.countP (fun k => containsSub k T) = 0 := by
  rw [List.countP_eq_zero]
  intro k hk hcs
  obtain ⟨c, hck, hcz⟩ := List.any_eq_true.mp (hcat k hk)
  have hmem := containsSub_subset k T hcs c hck
  rcases hT c hmem with rfl | rfl <;> simp at hcz

theorem matchToks_quant_none_nil (pat : List RTok) (hp : pat ∈ QUANT_TOKS)
    (prev : Option Char) : matchToks pat prev [] = none := by
  fin_cases hp <;> rfl

theorem matchToks_quant_none_cons (pat : List RTok) (hp : pat ∈ QUANT_TOKS)
    (prev : Option Char) (c : Char) (hc : c = 'z' ∨ c = ' ')
    (rest : List Char) : matchToks pat prev (c :: rest) = none := by
  rcases hc with rfl | rfl <;> fin_cases hp <;> rfl

theorem searchAux_quant_none (pat : List RTok) (hp : pat ∈ QUANT_TOKS) :
    ∀ s : List Char, (∀ c ∈ s, c = 'z' ∨ c = ' ') →
      ∀ prev, searchAux pat prev s = none := by
  intro s
  induction s with
  | nil =>
    intro _ prev
    simp [searchAux, matchToks_quant_none_nil pat hp prev]
  | cons c r ih =>
    intro hchars prev
    have hc := hchars c (List.mem_cons_self _ _)
    simp [searchAux, matchToks_quant_none_cons pat hp prev c hc r,
      ih (fun d hd => hchars d (List.mem_cons_of_mem _ hd)) (some c)]

theorem findCount_quant_zero (pat : List RTok) (hp : pat ∈ QUANT_TOKS)
    (s : List Char) (hchars : ∀ c ∈ s, c = 'z' ∨ c = ' ') :
    findCount pat s = 0 := by
  unfold findCount
  cases s with
  | nil => simp [findCountAux, matchToks_quant_none_nil pat hp]
  | cons c r =>
    simp [findCountAux, searchAux_quant_none pat hp _ hchars]

theorem quant_foldl_self (s : List Char)
    (hchars : ∀ c ∈ s, c = 'z' ∨ c = ' ') :
    ∀ (pats : List (List RTok)), (∀ p ∈ pats, p ∈ QUANT_TOKS) →
      ∀ acc : ℕ, pats.foldl (fun acc p => acc + findCount p s) acc = acc := by
  intro pats
  induction pats with
  | nil => intro _ acc; rfl
  | cons p ps ih =>
    intro hp acc
    rw [List.foldl_cons,
      findCount_quant_zero p (hp p (List.mem_cons_self _ _)) s hchars]
    exact ih (fun q hq => hp q (List.mem_cons_of_mem _ hq)) acc

theorem quantCount_z (s : List Char)
    (hchars : ∀ c ∈ s, c = 'z' ∨ c = ' ') : quantCount s = 0 :=
  quant_foldl_self s hchars QUANT_TOKS (fun _ hp => hp) 0

theorem splitWS_zWords : ∀ n : ℕ, splitWS (zWords n) = List.replicate n ['z'] := by
  intro n
  induction n with
  | zero => rfl
  | succ k ih =>
    rw [zWords_succ]
    show splitWSAux ('z' :: ' ' :: zWords k) [] = _
    rw [splitWSAux, if_neg (by decide)]
    rw [splitWSAux, if_pos (by decide), if_neg (by decide)]
    rw [List.replicate_succ]
    exact congrArg _ ih

theorem wc_zWords (n : ℕ) : (splitWS (zWords n)).length = n := by
  rw [splitWS_zWords]
  exact List.length_replicate _ _

theorem overall_filler_enh : (calculate {} fillerEnh []).overall_score = 10 := by
  have hchars : ∀ c ∈ pyLower fillerEnh, c = 'z' ∨ c = ' ' :=
    fun c hc => mem_pyLower_zWords hc
  have hful : scFullText {} fillerEnh = fillerEnh := scFullText_empty_rec _
  have h1 := filter_contains_zero TECHNICAL_KEYWORDS (pyLower fillerEnh)
    hchars (by decide)
  have h2 := filter_contains_zero SOFT_SKILLS (pyLower fillerEnh)
    hchars (by decide)
  have h3 := filter_contains_zero POWER_VERBS (pyLower fillerEnh)
    hchars (by decide)
  have hq := quantCount_z (pyLower fillerEnh) hchars
  have hvc := countP_contains_zero POWER_VERBS (pyLower fillerEnh)
    hchars (by decide)
  have hsec := sections_empty
  have hkw := keywords_zero (pyLower fillerEnh) h1 h2 h3
  have hcon := content_five (pyLower fillerEnh) hq hvc
  have hfmt := format_forty_five fillerEnh (wc_zWords 301)
  simp only [calculate, hful, hsec, hkw, hcon, hfmt]
  rw [if_neg (by simp)]
  have hv : (0 : ℚ) * (1/4) + 0 * (3/10) + 5 * (1/4) + 45 * (1/5) = 41/4 := by
    norm_num
  rw [hv]
  have hfl : ⌊(41/4 : ℚ)⌋ = 10 := by
    rw [Int.floor_eq_iff]
    constructor <;> norm_num
  rw [pyRound_eq_floor_of_lt (by rw [hfl]; norm_num), hfl]

theorem filler_comb_eq : fillerOrig ++ fillerEnh = zWords 902 := by
  show zWords 601 ++ zWords 301 = zWords 902
  rw [zWords_append]

theorem overall_filler_comb :
    (calculate {} (fillerOrig ++ fillerEnh) []).overall_score = 7 := by
  rw [filler_comb_eq]
  have hchars : ∀ c ∈ pyLower (zWords 902), c = 'z' ∨ c = ' ' :=
    fun c hc => mem_pyLower_zWords hc
  have hful : scFullText {} (zWords 902) = zWords 902 := scFullText_empty_rec _
  have h1 := filter_contains_zero TECHNICAL_KEYWORDS (pyLower (zWords 902))
    hchars (by decide)
  have h2 := filter_contains_zero SOFT_SKILLS (pyLower (zWords 902))
    hchars (by decide)
  have h3 := filter_contains_zero POWER_VERBS (pyLower (zWords 902))
    hchars (by decide)
  have hq := quantCount_z (pyLower (zWords 902)) hchars
  have hvc := countP_contains_zero POWER_VERBS (pyLower (zWords 902))
    hchars (by decide)
  have hsec := sections_empty
  have hkw := keywords_zero (pyLower (zWords 902)) h1 h2 h3
  have hcon := content_five (pyLower (zWords 902)) hq hvc
  have hfmt := format_thirty (zWords 902) (wc_zWords 902)
  simp only [calculate, hful, hsec, hkw, hcon, hfmt]
  rw [if_neg (by simp)]
  have hv : (0 : ℚ) * (1/4) + 0 * (3/10) + 5 * (1/4) + 30 * (1/5) = 29/4 := by
    norm_num
  rw [hv]
  have hfl : ⌊(29/4 : ℚ)⌋ = 7 := by
    rw [Int.floor_eq_iff]
    constructor <;> norm_num
  rw [pyRound_eq_floor_of_lt (by rw [hfl]; norm_num), hfl]

/-- **C2, counterexample.**  A 601-word original plus a 301-word enhanced
text: the 902-word combination leaves the 300–900 word-count band, losing
15 format points, so the combined overall score (7) is strictly below the
enhanced-alone score (10). -/
theorem c2_counterexample :
    fillerOrig ≠ ([] : List Char)
    ∧ ¬ ((calculate {} fillerEnh []).overall_score
        ≤ (calculate {} (fillerOrig ++ fillerEnh) []).overall_score) := by
  constructor
  · show zWords 601 ≠ []
    have : (601 : ℕ) = 600 + 1 := rfl
    rw [this, zWords_succ]
    exact List.cons_ne_nil _ _
  · rw [overall_filler_comb, overall_filler_enh]
    norm_num

theorem containsSub_append_left (n pre h : List Char)
    (hc : containsSub n h = true) : containsSub n (pre ++ h) = true := by
  induction pre with
  | nil => exact hc
  | cons c cs ih =>
    rw [List.cons_append]
    simp only [containsSub]
    rw [ih]
    simp

theorem length_filter_mono {α : Type} {p q : α → Bool} (l : List α)
    (h : ∀ a ∈ l, p a = true → q a = true) :
    (l.filter p).length ≤ (l.filter q).length := by
  induction l with
  | nil => simp
  | cons a as ih =>
    have ih' := ih (fun b hb hp => h b (List.mem_cons_of_mem _ hb) hp)
    simp only [List.filter_cons]
    by_cases hp : p a = true
    · rw [if_pos hp, if_pos (h a (List.mem_cons_self _ _) hp)]
      simpa using ih'
    · rw [if_neg hp]
      split
      · exact le_trans ih' (by simp)
      · exact ih'

theorem joinSep_cons_append (sep pre x : List Char)
    (rest : List (List Char)) :
    joinSep sep ((pre ++ x) :: rest) = pre ++ joinSep sep (x :: rest) := by
  cases rest with
  | nil => simp [joinSep, List.intersperse]
  | cons y ys =>
    simp only [joinSep, List.intersperse, List.flatten]
    rw [List.append_assoc]

/-- `_full_text` over a prefixed raw text is the prefix plus `_full_text`. -/
theorem scFullText_append (data : ResRec) (pre raw : List Char) :
    scFullText data (pre ++ raw) = pre ++ scFullText data raw := by
  simp only [scFullText]
  exact joinSep_cons_append _ _ _ _

/-- Keyword coverage is monotone under prefixing the scanned text. -/
theorem keywords_score_mono (pre t jd : List Char) :
    (keywords_score t jd).1 ≤ (keywords_score (pre ++ t) jd).1 := by
  have htech : ((TECHNICAL_KEYWORDS.filter (fun k => containsSub k t)).length : ℚ)
      ≤ ((TECHNICAL_KEYWORDS.filter (fun k => containsSub k (pre ++ t))).length : ℚ) := by
    exact_mod_cast length_filter_mono _
      (fun k _ hk => containsSub_append_left k pre t hk)
  have hsoft : ((SOFT_SKILLS.filter (fun k => containsSub k t)).length : ℚ)
      ≤ ((SOFT_SKILLS.filter (fun k => containsSub k (pre ++ t))).length : ℚ) := by
    exact_mod_cast length_filter_mono _
      (fun k _ hk => containsSub_append_left k pre t hk)
  have hverb : ((POWER_VERBS.filter (fun v => containsSub v t)).length : ℚ)
      ≤ ((POWER_VERBS.filter (fun v => containsSub v (pre ++ t))).length : ℚ) := by
    exact_mod_cast length_filter_mono _
      (fun v _ hv => containsSub_append_left v pre t hv)
  have hT : (0 : ℚ) < (TECHNICAL_KEYWORDS.length : ℚ) := by
    exact_mod_cast (by decide : 0 < TECHNICAL_KEYWORDS.length)
  have hS : (0 : ℚ) < (SOFT_SKILLS.length : ℚ) := by
    exact_mod_cast (by decide : 0 < SOFT_SKILLS.length)
  have hV : (0 : ℚ) < (POWER_VERBS.length : ℚ) := by
    exact_mod_cast (by decide : 0 < POWER_VERBS.length)
  simp only [keywords_score]
  refine min_le_min le_rfl ?_
  gcongr

/-- **C2, amended.**  For every resume record, non-empty original raw text,
and job description, the built-in scorer's **keyword score** on the
concatenation of the original and the enhanced text is at least the keyword
score on the enhanced text alone.  (The analogous statement for the
**overall** score is false — see the counterexample: the format word-count
band is not monotone.) -/
theorem c2_amended (data : ResRec) (orig enh jd : List Char)
    (_h : orig ≠ []) :
    (calculate data enh jd).keyword_score
      ≤ (calculate data (orig ++ enh) jd).keyword_score := by
  simp only [calculate]
  apply pyRound_mono
  rw [scFullText_append data orig enh]
  have hlow : pyLower (orig ++ scFullText data enh)
      = pyLower orig ++ pyLower (scFullText data enh) := List.map_append _ _ _
  rw [hlow]
  exact keywords_score_mono _ _ _

/-- **C2, witness.** -/
theorem c2_witness :
    (sl "a") ≠ ([] : List Char)
    ∧ (calculate {} (sl "b") []).keyword_score
        ≤ (calculate {} (sl "a" ++ sl "b") []).keyword_score :=
  ⟨by decide, c2_amended {} (sl "a") (sl "b") [] (by decide)⟩

/-- **C7 (code bug).**  The claim says the PDF entry point never raises an
error visible to the caller, returning a diagnostic string instead.  But in
`_extract_pdf_text` the first `try` block catches only `ImportError`: when
pdfplumber is importable and the document is corrupt, the extraction error
propagates out of `parse_pdf`.  Concretely, in an environment where
pdfplumber is available and raises on the input bytes, `parse_pdf` returns
the raised error instead of a `(record, text)` pair — while the same bytes
under the PyPDF2 path produce the claimed diagnostic pair. -/
theorem c7_pdf_error_propagates :
    parse_pdf
        { pdfplumberOk := true
          pdfplumberExtract := fun _ =>
            .error (sl "No /Root object! - Is this really a PDF?")
          pypdf2Extract := fun _ => .error (sl "EmptyFileError") }
        [37, 80, 68, 70]
      = .error (sl "No /Root object! - Is this really a PDF?")
    ∧ parse_pdf
        { pdfplumberOk := false
          pdfplumberExtract := fun _ =>
            .error (sl "No /Root object! - Is this really a PDF?")
          pypdf2Extract := fun _ => .error (sl "EmptyFileError") }
        [37, 80, 68, 70]
      = .ok (extract_from_text (sl "(PDF parse error: EmptyFileError)"),
             sl "(PDF parse error: EmptyFileError)") := by
  constructor
  · rfl
  · rfl

/-! ### Quota orchestration (C6) -/

/-- `_call` raises only on a quota error, and then the sticky flag is set. -/
theorem aiCall_error_quota (oracle : ℕ → AIOutcome) (st : AIState)
    (u : Unit) (st' : AIState) (h : aiCall oracle st = (.error u, st')) :
    st'.quotaExceeded = true := by
  unfold aiCall at h
  by_cases hq : st.quotaExceeded
  · rw [if_pos hq] at h
    have h1 := congrArg (fun p : Except Unit (List Char) × AIState => p.1) h
    simp at h1
  · rw [if_neg hq] at h
    cases ho : oracle st.callIdx <;> rw [ho] at h
    · have h1 := congrArg (fun p : Except Unit (List Char) × AIState => p.1) h
      simp at h1
    · have h2 := congrArg (fun p : Except Unit (List Char) × AIState => p.2) h
      simp at h2
      rw [← h2]
    · have h1 := congrArg (fun p : Except Unit (List Char) × AIState => p.1) h
      simp at h1

/-- Error propagation through `bindE` preserves "the flag is set". -/
theorem bindE_qflag {α β : Type} {x : Except Unit α × AIState}
    {f : α → AIState → Except Unit β × AIState} {u : Unit} {st' : AIState}
    (hx : ∀ v st2, x = (Except.error v, st2) → st2.quotaExceeded = true)
    (hf : ∀ a st1 v st2, f a st1 = (Except.error v, st2) →
      st2.quotaExceeded = true)
    (h : bindE x f = (Except.error u, st')) : st'.quotaExceeded = true := by
  rcases x with ⟨e, st0⟩
  cases e with
  | ok a =>
    rw [bindE] at h
    exact hf a st0 u st' h
  | error v =>
    rw [bindE] at h
    have h2 := congrArg
      (fun p : Except Unit β × AIState => p.2) h
    simp at h2
    rw [← h2]
    exact hx v st0 rfl

/-- A pure `(.ok _, _)` step never errors. -/
theorem ok_no_error {α : Type} (a : α) (st : AIState) (v : Unit)
    (st2 : AIState) (h : ((Except.ok a, st) : Except Unit α × AIState)
      = (Except.error v, st2)) : st2.quotaExceeded = true := by
  have h1 := congrArg (fun p : Except Unit α × AIState => p.1) h
  simp at h1

theorem gptEntryStep_qflag (oracle : ℕ → AIOutcome) (ex : ExpEntry)
    (st : AIState) (u : Unit) (st' : AIState)
    (h : gptEntryStep oracle ex st = (.error u, st')) :
    st'.quotaExceeded = true := by
  simp only [gptEntryStep] at h
  split at h
  · refine bindE_qflag ?_ ?_ h
    · exact fun v st2 hx => aiCall_error_quota oracle st v st2 hx
    · exact fun a st1 v st2 hp => ok_no_error _ _ _ _ hp
  · exact ok_no_error _ _ _ _ h

theorem gptEntriesLoop_qflag (oracle : ℕ → AIOutcome) :
    ∀ (entries : List ExpEntry) (st : AIState) (u : Unit) (st' : AIState),
      gptEntriesLoop oracle entries st = (.error u, st') →
      st'.quotaExceeded = true := by
  intro entries
  induction entries with
  | nil =>
    intro st u st' h
    exact ok_no_error _ _ _ _ h
  | cons ex rest ih =>
    intro st u st' h
    simp only [gptEntriesLoop] at h
    refine bindE_qflag ?_ ?_ h
    · exact fun v st2 hx => gptEntryStep_qflag oracle ex st v st2 hx
    · intro a st1 v st2 hf
      refine bindE_qflag ?_ ?_ hf
      · exact fun v2 st3 hx => ih st1 v2 st3 hx
      · exact fun b st3 v2 st4 hp => ok_no_error _ _ _ _ hp

/-- If `_gpt_enhance` aborts (the only raise is the quota error in
`_call`), the sticky flag is set in the resulting state. -/
theorem gpt_enhance_qflag (oracle : ℕ → AIOutcome) (data : ResRec)
    (st : AIState) (u : Unit) (st' : AIState)
    (h : gpt_enhance oracle data st = (.error u, st')) :
    st'.quotaExceeded = true := by
  simp only [gpt_enhance] at h
  refine bindE_qflag (fun v st2 hx => aiCall_error_quota oracle st v st2 hx)
    ?_ h
  intro r1 st1 v st2 hstep
  simp only [] at hstep
  refine bindE_qflag ?_ ?_ hstep
  · intro v2 st3 hx
    split at hx
    · exact bindE_qflag
        (fun v3 st4 hy => aiCall_error_quota oracle st1 v3 st4 hy)
        (fun a st4 v3 st5 hp => ok_no_error _ _ _ _ hp) hx
    · exact ok_no_error _ _ _ _ hx
  intro e2 st2a v2 st3 hstep2
  simp only [] at hstep2
  refine bindE_qflag ?_ ?_ hstep2
  · intro v3 st4 hx
    split at hx
    · exact bindE_qflag
        (fun v4 st5 hy => gptEntriesLoop_qflag oracle _ st2a v4 st5 hy)
        (fun a st5 v4 st6 hp => ok_no_error _ _ _ _ hp) hx
    · exact ok_no_error _ _ _ _ hx
  intro e3 st3a v3 st4 hstep3
  simp only [] at hstep3
  refine bindE_qflag ?_ ?_ hstep3
  · intro v4 st5 hx
    split at hx
    · exact bindE_qflag
        (fun v5 st6 hy => aiCall_error_quota oracle st3a v5 st6 hy)
        (fun a st6 v5 st7 hp => ok_no_error _ _ _ _ hp) hx
    · exact ok_no_error _ _ _ _ hx
  intro e4 st4a v4 st5 hstep4
  simp only [] at hstep4
  refine bindE_qflag ?_ ?_ hstep4
  · intro v5 st6 hx
    split at hx
    · refine bindE_qflag
        (fun v6 st7 hy => aiCall_error_quota oracle st4a v6 st7 hy)
        ?_ hx
      intro a st7 v6 st8 hp
      split at hp
      · exact ok_no_error _ _ _ _ hp
      · exact ok_no_error _ _ _ _ hp
    · exact ok_no_error _ _ _ _ hx
  exact fun e5 st5a v5 st6 hp => ok_no_error _ _ _ _ hp

/-- **C6.**  With an available AI client and the sticky quota flag clear,
if an AI sub-call fails with a quota error (the only condition that makes
`_gpt_enhance` abort), then: the sticky flag is set in the resulting
state, the enhancement request returns exactly the deterministic
rule-based rewrite of the unmodified input record, and every later
enhancement call on the same orchestrator state performs no AI call
(the oracle is never consulted: the state, including the call counter, is
returned unchanged) and returns the deterministic rewrite. -/
theorem c6_quota_fallback (oracle : ℕ → AIOutcome) (data : ResRec)
    (jd target_role : List Char) (st : AIState) (u : Unit) (st' : AIState)
    (hq : st.quotaExceeded = false)
    (herr : gpt_enhance oracle data st = (.error u, st')) :
    st'.quotaExceeded = true
    ∧ enhance_resume oracle true st data jd target_role
        = (rule_enhance data target_role jd, st')
    ∧ ∀ (st2 : AIState) (data2 : ResRec) (jd2 role2 : List Char)
        (avail : Bool), st2.quotaExceeded = true →
        enhance_resume oracle avail st2 data2 jd2 role2
          = (rule_enhance data2 role2 jd2, st2) := by
  refine ⟨gpt_enhance_qflag oracle data st u st' herr, ?_, ?_⟩
  · unfold enhance_resume
    rw [hq, herr]
    rfl
  · intro st2 data2 jd2 role2 avail h2
    unfold enhance_resume
    rw [h2]
    simp

/-- **C6, witness.**  An oracle whose first call reports a quota error. -/
theorem c6_witness :
    (⟨true, 1⟩ : AIState).quotaExceeded = true
    ∧ enhance_resume (fun _ => AIOutcome.quotaErr) true ⟨false, 0⟩
        {summary := sl "old summary"} [] []
      = (rule_enhance {summary := sl "old summary"} [] [], ⟨true, 1⟩) :=
  ⟨(c6_quota_fallback (fun _ => AIOutcome.quotaErr)
      {summary := sl "old summary"} [] [] ⟨false, 0⟩ () ⟨true, 1⟩ rfl rfl).1,
   (c6_quota_fallback (fun _ => AIOutcome.quotaErr)
      {summary := sl "old summary"} [] [] ⟨false, 0⟩ () ⟨true, 1⟩ rfl rfl).2.1⟩

/-! ### The frame property of the rule-based enhancement (C8) -/

theorem StoreExtends.refl (s : Store) : StoreExtends s s :=
  ⟨le_rfl, fun _ _ => rfl⟩

theorem StoreExtends.trans {s0 s1 s2 : Store} (h1 : StoreExtends s0 s1)
    (h2 : StoreExtends s1 s2) : StoreExtends s0 s2 :=
  ⟨le_trans h1.1 h2.1,
   fun a ha => (h2.2 a (lt_of_lt_of_le ha h1.1)).trans (h1.2 a ha)⟩

theorem storeExtends_alloc (s : Store) (v : PyVal) :
    StoreExtends s (alloc s v).2 := by
  constructor
  · simp [alloc]
  · intro a ha
    simp only [alloc]
    exact List.get?_append ha

theorem storeExtends_alloc_of {s0 s : Store} (h : StoreExtends s0 s)
    (v : PyVal) : StoreExtends s0 (alloc s v).2 :=
  h.trans (storeExtends_alloc s v)

theorem storeExtends_set {s0 s : Store} (h : StoreExtends s0 s) {a : ℕ}
    (ha : s0.length ≤ a) (v : PyVal) : StoreExtends s0 (setVal s a v) := by
  constructor
  · rw [setVal, List.length_set]
    exact h.1
  · intro b hb
    rw [setVal, List.get?_set_ne]
    · exact h.2 b hb
    · omega

theorem storeExtends_setFieldA {s0 s : Store} (h : StoreExtends s0 s) {a : ℕ}
    (ha : s0.length ≤ a) (k : List Char) (va : ℕ) :
    StoreExtends s0 (setFieldA s a k va) :=
  storeExtends_set h ha _

theorem storeExtends_writeNewStr {s0 s : Store} (h : StoreExtends s0 s)
    {da : ℕ} (hda : s0.length ≤ da) (k v : List Char) :
    StoreExtends s0 (writeNewStr s da k v) :=
  storeExtends_setFieldA (storeExtends_alloc_of h _) hda _ _

theorem storeExtends_allocStrs (xs : List (List Char)) :
    ∀ s : Store, StoreExtends s (allocStrs s xs).2 := by
  induction xs with
  | nil => intro s; exact StoreExtends.refl s
  | cons x xs ih =>
    intro s
    exact (storeExtends_alloc s _).trans (ih (alloc s _).2)

theorem storeExtends_writeNewStrList {s0 s : Store} (h : StoreExtends s0 s)
    {da : ℕ} (hda : s0.length ≤ da) (k : List Char)
    (xs : List (List Char)) :
    StoreExtends s0 (writeNewStrList s da k xs) :=
  storeExtends_setFieldA
    (storeExtends_alloc_of (h.trans (storeExtends_allocStrs xs s)) _) hda _ _

theorem storeExtends_ite {s0 : Store} {c : Prop} [Decidable c] {s t : Store}
    (h1 : StoreExtends s0 s) (h2 : StoreExtends s0 t) :
    StoreExtends s0 (if c then s else t) := by
  split
  · exact h1
  · exact h2

theorem storeExtends_copyEntryOp {s0 s : Store} (h : StoreExtends s0 s)
    (entryA : ℕ) : StoreExtends s0 (copyEntryOp s entryA).2 := by
  unfold copyEntryOp
  simp only []
  split
  · exact storeExtends_writeNewStrList (storeExtends_alloc_of h _) h.1 _ _
  · exact storeExtends_alloc_of h _

theorem storeExtends_entriesLoopOp {s0 : Store} :
    ∀ (addrs : List ℕ) (s : Store), StoreExtends s0 s →
      StoreExtends s0 (entriesLoopOp s addrs).2 := by
  intro addrs
  induction addrs with
  | nil => intro s h; exact h
  | cons a as ih =>
    intro s h
    exact ih _ (storeExtends_copyEntryOp h a)

set_option maxHeartbeats 3200000 in
/-- **C8.**  The rule-based enhancement path returns a freshly allocated
record (its address is the old heap size) and leaves every pre-existing
heap cell — the input record, its skills list, and each experience entry —
exactly as it was before the call. -/
theorem c8_no_mutation (s0 : Store) (da : ℕ) (role jd : List Char) :
    (rule_enhance_op s0 da role jd).1 = s0.length
    ∧ StoreExtends s0 (rule_enhance_op s0 da role jd).2 := by
  constructor
  · rfl
  · unfold rule_enhance_op
    simp only []
    refine storeExtends_writeNewStr ?_ le_rfl _ _
    refine storeExtends_writeNewStrList ?_ le_rfl _ _
    refine storeExtends_ite ?_ ?_
    · refine storeExtends_writeNewStr ?_ le_rfl _ _
      refine storeExtends_ite (storeExtends_ite ?_ ?_) ?_
      · refine storeExtends_writeNewStr ?_ le_rfl _ _
        refine storeExtends_setFieldA ?_ le_rfl _ _
        refine storeExtends_alloc_of ?_ _
        refine storeExtends_entriesLoopOp _ _ ?_
        refine storeExtends_ite ?_ ?_
        · refine storeExtends_writeNewStr ?_ le_rfl _ _
          refine storeExtends_writeNewStr ?_ le_rfl _ _
          exact storeExtends_alloc s0 _
        · refine storeExtends_writeNewStr ?_ le_rfl _ _
          exact storeExtends_alloc s0 _
      · refine storeExtends_setFieldA ?_ le_rfl _ _
        refine storeExtends_alloc_of ?_ _
        refine storeExtends_entriesLoopOp _ _ ?_
        refine storeExtends_ite ?_ ?_
        · refine storeExtends_writeNewStr ?_ le_rfl _ _
          refine storeExtends_writeNewStr ?_ le_rfl _ _
          exact storeExtends_alloc s0 _
        · refine storeExtends_writeNewStr ?_ le_rfl _ _
          exact storeExtends_alloc s0 _
      · refine storeExtends_ite ?_ ?_
        · refine storeExtends_writeNewStr ?_ le_rfl _ _
          refine storeExtends_writeNewStr ?_ le_rfl _ _
          exact storeExtends_alloc s0 _
        · refine storeExtends_writeNewStr ?_ le_rfl _ _
          exact storeExtends_alloc s0 _
    · refine storeExtends_ite (storeExtends_ite ?_ ?_) ?_
      · refine storeExtends_writeNewStr ?_ le_rfl _ _
        refine storeExtends_setFieldA ?_ le_rfl _ _
        refine storeExtends_alloc_of ?_ _
        refine storeExtends_entriesLoopOp _ _ ?_
        refine storeExtends_ite ?_ ?_
        · refine storeExtends_writeNewStr ?_ le_rfl _ _
          refine storeExtends_writeNewStr ?_ le_rfl _ _
          exact storeExtends_alloc s0 _
        · refine storeExtends_writeNewStr ?_ le_rfl _ _
          exact storeExtends_alloc s0 _
      · refine storeExtends_setFieldA ?_ le_rfl _ _
        refine storeExtends_alloc_of ?_ _
        refine storeExtends_entriesLoopOp _ _ ?_
        refine storeExtends_ite ?_ ?_
        · refine storeExtends_writeNewStr ?_ le_rfl _ _
          refine storeExtends_writeNewStr ?_ le_rfl _ _
          exact storeExtends_alloc s0 _
        · refine storeExtends_writeNewStr ?_ le_rfl _ _
          exact storeExtends_alloc s0 _
      · refine storeExtends_ite ?_ ?_
        · refine storeExtends_writeNewStr ?_ le_rfl _ _
          refine storeExtends_writeNewStr ?_ le_rfl _ _
          exact storeExtends_alloc s0 _
        · refine storeExtends_writeNewStr ?_ le_rfl _ _
          exact storeExtends_alloc s0 _

/-- **C9.**  Contact extraction on the Jane Doe line against an empty
record sets email, the 10-digit normalized phone, the LinkedIn handle, and
a location containing "San Francisco". -/
theorem c9_contact_extraction :
    (parse_contact_line
        (sl "Jane Doe | jane@x.com | +1 (415) 555-2671 | linkedin.com/in/janedoe | San Francisco, CA")
        {}).email = sl "jane@x.com"
    ∧ (parse_contact_line
        (sl "Jane Doe | jane@x.com | +1 (415) 555-2671 | linkedin.com/in/janedoe | San Francisco, CA")
        {}).phone = sl "4155552671"
    ∧ (parse_contact_line
        (sl "Jane Doe | jane@x.com | +1 (415) 555-2671 | linkedin.com/in/janedoe | San Francisco, CA")
        {}).linkedin = sl "linkedin.com/in/janedoe"
    ∧ containsSub (sl "San Francisco")
        (parse_contact_line
          (sl "Jane Doe | jane@x.com | +1 (415) 555-2671 | linkedin.com/in/janedoe | San Francisco, CA")
          {}).location = true := by
  refine ⟨by decide, by decide, by decide, by decide⟩

end RB
